import Mathlib

/-!
Shallow embedding of the galaxy-tracing pipeline:
`generate_objids.py` (identifier assignment, descendant classification,
identifier propagation, auxiliary linkage emission) and
`generate_mergelist.py` (carrier-map propagation).

numpy int32 arrays are modelled as `List Int` (for tables indexed by node
index) or as total functions `Nat → Int` (for the dense carrier arrays,
whose updates in the source are pointwise vectorised assignments).
numpy fancy indexing with possibly negative indices is modelled by `pyIdx`.
A `set_trace()` reached on an error condition (a fatal abort) is modelled
by returning `none`.
-/

namespace Tracing

/-- Array element access, `l[i]` for `0 ≤ i < len` with junk default. -/
def nthI (l : List Int) (i : Nat) : Int := l.getD i (-99)

/-- Python/numpy index normalisation: a negative index counts from the end. -/
def pyIdx (len : Nat) (i : Int) : Nat := if i < 0 then ((len : Int) + i).toNat else i.toNat

/-- numpy-style read from a dense array given its length. -/
def npget (a : Nat → Int) (len : Nat) (i : Int) : Int := a (pyIdx len i)

/-- numpy-style read from a list with python index normalisation. -/
def nthIpy (l : List Int) (i : Int) : Int := nthI l (pyIdx l.length i)

/-- `np.max` over an int32 array (identity element: the smallest int32). -/
def npmax (l : List Int) : Int := l.foldl max (-(2 ^ 31 : Int))

/-- `np.min` over an int32 array (identity element: the largest int32). -/
def npmin (l : List Int) : Int := l.foldl min (2 ^ 31 - 1 : Int)

/-- `a[idxs] = v` for a constant value `v` (numpy fancy assignment). -/
def scatterConst (st : Nat → Int) (len : Nat) (idxs : List Int) (v : Int) : Nat → Int :=
  fun j => if idxs.any (fun x => pyIdx len x == j) then v else st j

/-- `a[idxs] = vals` for per-element values (paired as index/value);
with duplicate indices the later pair wins, as in sequential assignment. -/
def scatterVals (st : Nat → Int) (len : Nat) (pairs : List (Int × Int)) : Nat → Int :=
  pairs.foldl (fun a p => fun j => if j = pyIdx len p.1 then p.2 else a j) st

/-- `l[i] = v` at a python-normalised index. -/
def setNthI (l : List Int) (i : Int) (v : Int) : List Int := l.set (pyIdx l.length i) v

/-! ## Phase 1: `generate_objids.py` -/

/-- The merger-tree input: flat per-entry arrays (`Subhalo/ID`,
`Subhalo/SnapNum`, `MergerTree/DescendantID`, `MergerTree/TopLeafID`) and
the per-snapshot entry index lists (`SOAP/Snapshot____`). -/
structure MergerTree where
  vrid : List Int
  isnap : List Int
  descid : List Int
  topid : List Int
  soap : Nat → List Nat
  num_snaps : Nat

/-- `mt_inds[v]`: the flat merger-tree index of node `v` of snapshot `s`. -/
def mtInd (mt : MergerTree) (s : Nat) (v : Nat) : Nat := (mt.soap s).getD v 0

/-- Number of haloes (nodes) in snapshot `s`. -/
def num_haloes (mt : MergerTree) (s : Nat) : Nat := (mt.soap s).length

/-- `desc_mtinds` entry for tree entry `m`: descendant index `= DescendantID - 1`,
with absent descendants (negative index) clamped to `-1`. -/
def desc_mtind (mt : MergerTree) (m : Nat) : Int :=
  if nthI mt.descid m - 1 < 0 then -1 else nthI mt.descid m - 1

/-- `desc_vrinds` entry: the descendant's VR index `= VR ID - 1`, `-1` if absent. -/
def desc_vrind (mt : MergerTree) (m : Nat) : Int :=
  if desc_mtind mt m < 0 then -1 else nthI mt.vrid (desc_mtind mt m).toNat - 1

/-- `desc_snap` entry: the descendant's snapshot number, `-1` if absent. -/
def desc_snap (mt : MergerTree) (m : Nat) : Int :=
  if desc_mtind mt m < 0 then -1 else nthI mt.isnap (desc_mtind mt m).toNat

/-- Main-progenitor test for tree entry `m`:
`(mt_inds <= mt['topid'][desc_mtinds] - 1) & (desc_mtinds >= 0)`. -/
def is_main_prog (mt : MergerTree) (m : Nat) : Bool :=
  decide (0 ≤ desc_mtind mt m) &&
    decide ((m : Int) ≤ nthI mt.topid (desc_mtind mt m).toNat - 1)

/-- Merging test for tree entry `m`:
`(mt_inds > mt['topid'][desc_mtinds] - 1) & (desc_mtinds >= 0)`. -/
def is_merging (mt : MergerTree) (m : Nat) : Bool :=
  decide (0 ≤ desc_mtind mt m) &&
    decide ((m : Int) > nthI mt.topid (desc_mtind mt m).toNat - 1)

/-- `ind_no_desc`: VR indices of snapshot `s` with no descendant. -/
def ind_no_desc (mt : MergerTree) (s : Nat) : List Nat :=
  (List.range (num_haloes mt s)).filter (fun v => decide (desc_mtind mt (mtInd mt s v) < 0))

/-- `ind_is_main_prog`: VR indices of snapshot `s` that are main progenitors. -/
def ind_is_main_prog (mt : MergerTree) (s : Nat) : List Nat :=
  (List.range (num_haloes mt s)).filter (fun v => is_main_prog mt (mtInd mt s v))

/-- `ind_is_merging`: VR indices of snapshot `s` that merge into their descendant. -/
def ind_is_merging (mt : MergerTree) (s : Nat) : List Nat :=
  (List.range (num_haloes mt s)).filter (fun v => is_merging mt (mtInd mt s v))

/-- Per-node skip count emitted as `Snap_xxxx_numskip`: `desc_snap - isnap`. -/
def aux_numskip (mt : MergerTree) (s : Nat) : List Int :=
  (List.range (num_haloes mt s)).map (fun v => desc_snap mt (mtInd mt s v) - (s : Int))

/-- The `Snap_xxxx_fading` dataset: `ind_no_desc`. -/
def aux_fading (mt : MergerTree) (s : Nat) : List Nat := ind_no_desc mt s

/-- The `Snap_xxxx_surviving` dataset: the source writes `ind_is_main_prog`. -/
def aux_surviving (mt : MergerTree) (s : Nat) : List Nat := ind_is_main_prog mt s

/-- The `Snap_xxxx_merging` dataset: `ind_is_merging`. -/
def aux_merging (mt : MergerTree) (s : Nat) : List Nat := ind_is_merging mt s

/-- The `Snap_xxxx_targetvr` dataset: `desc_vrinds[ind_is_merging]`. -/
def aux_targetvr (mt : MergerTree) (s : Nat) : List Int :=
  (ind_is_merging mt s).map (fun v => desc_vrind mt (mtInd mt s v))

/-- The `Snap_xxxx_targetsnap` dataset: `desc_snap[ind_is_merging]`. -/
def aux_targetsnap (mt : MergerTree) (s : Nat) : List Int :=
  (ind_is_merging mt s).map (fun v => desc_snap mt (mtInd mt s v))

/-- Lines 87-90: assign consecutive fresh identifiers, starting at `next`,
to every slot still negative, in structural-index order. -/
def assignNewIds : List Int → Int → List Int
  | [], _ => []
  | x :: xs, next =>
    if x < 0 then next :: assignNewIds xs (next + 1) else x :: assignNewIds xs next

/-- Number of slots lacking an identifier (`len(ind_new)`). -/
def countNeg (l : List Int) : Nat := (l.filter (fun x => decide (x < 0))).length

/-- Line 118 consistency check: all tree entries of this snapshot report
snapshot number `s` (written via `np.min`/`np.max` in the source). -/
def snap_check (mt : MergerTree) (s : Nat) : Bool :=
  let vals := (mt.soap s).map (fun m => nthI mt.isnap m)
  decide (npmin vals = (s : Int)) && decide (npmax vals = (s : Int))

/-- Line 121 check: the VR IDs of this snapshot are the contiguous set
`1..num_haloes` (`np.array_equal(mt['vrid'][mt_inds], np.arange(num_haloes)+1)`). -/
def vrids_contiguous (mt : MergerTree) (s : Nat) : Bool :=
  decide ((mt.soap s).map (fun m => nthI mt.vrid m)
    = (List.range (num_haloes mt s)).map (fun v => (v : Int) + 1))

/-- `unique_desc_snaps`, restricted to the non-negative entries that the
propagation loop does not skip: sorted distinct non-negative values of
`desc_snap`. -/
def unique_desc_snaps (mt : MergerTree) (s : Nat) : List Nat :=
  let dsnaps := (List.range (num_haloes mt s)).map (fun v => desc_snap mt (mtInd mt s v))
  (List.range ((npmax dsnaps).toNat + 1)).filter (fun t => decide ((t : Int) ∈ dsnaps))

/-- The main progenitors of snapshot `s` whose descendant lies in snapshot `t`
(`ind_to_dsnap`). -/
def ind_to_dsnap (mt : MergerTree) (s t : Nat) : List Nat :=
  (ind_is_main_prog mt s).filter (fun v => decide (desc_snap mt (mtInd mt s v) = (t : Int)))

/-- The descendant slots targeted in snapshot `t` by snapshot `s`'s main
progenitors (`desc_vrinds[ind_to_dsnap]`). -/
def group_targets (mt : MergerTree) (s t : Nat) : List Int :=
  (ind_to_dsnap mt s t).map (fun v => desc_vrind mt (mtInd mt s v))

/-- Lines 176-184: carry the identifiers of the main progenitors targeting
snapshot `t` into the targeted slots of snapshot `t`'s table, after the
duplicate-target check (a duplicate is fatal). -/
def propagate_group (mt : MergerTree) (s t : Nat) (objs_s : List Int) (tbl : List Int) :
    Option (List Int) :=
  if (group_targets mt s t).Nodup then
    some ((ind_to_dsnap mt s t).foldl
      (fun l v => setNthI l (desc_vrind mt (mtInd mt s v)) (nthI objs_s v)) tbl)
  else none

/-- One iteration of the propagation loop (lines 160-184): materialise the
target snapshot's table lazily and run `propagate_group` on it. -/
def propagate_step (mt : MergerTree) (s : Nat) (objs_s : List Int)
    (m : Nat → Option (List Int)) (t : Nat) : Option (Nat → Option (List Int)) :=
  let tbl := (m t).getD (List.replicate (num_haloes mt t) (-1))
  (propagate_group mt s t objs_s tbl).map
    (fun tbl' => fun t' => if t' = t then some tbl' else m t')

/-- Lines 160-184: the whole identifier-propagation loop over the descendant
snapshots. -/
def propagateAll (mt : MergerTree) (s : Nat) (objs_s : List Int)
    (m : Nat → Option (List Int)) : Option (Nat → Option (List Int)) :=
  (unique_desc_snaps mt s).foldlM (propagate_step mt s objs_s) m

/-- `process_snapshot` of `generate_objids.py`: identifier assignment for
snapshot `s`, the consistency checks, and identifier propagation.
Note that the line-121 VR-ID check only prints in the source and does not
abort, so it does not appear as a fatal condition here; the emitted
auxiliary datasets are modelled by the standalone `aux_*` definitions.
Returns the advanced global counter and the updated table map (with
snapshot `s`'s table freed, as in lines 186-187), or `none` on a fatal
condition. -/
def objs0Of (mt : MergerTree) (s : Nat) (objIDs : Nat → Option (List Int)) : List Int :=
  (objIDs s).getD (List.replicate (num_haloes mt s) (-1))

/-- The identifier table of snapshot `s` after the line 87-90 assignment. -/
def objs1Of (mt : MergerTree) (s : Nat) (max_current_id : Int)
    (objIDs : Nat → Option (List Int)) : List Int :=
  assignNewIds (objs0Of mt s objIDs) (max_current_id + 1)

/-- The table map with snapshot `s`'s freshly completed table installed. -/
def m1Of (mt : MergerTree) (s : Nat) (max_current_id : Int)
    (objIDs : Nat → Option (List Int)) : Nat → Option (List Int) :=
  fun t => if t = s then some (objs1Of mt s max_current_id objIDs) else objIDs t

def process_snapshot_objids (mt : MergerTree) (s : Nat) (max_current_id : Int)
    (objIDs : Nat → Option (List Int)) : Option (Int × (Nat → Option (List Int))) :=
  if 0 < num_haloes mt s ∧ npmin (objs1Of mt s max_current_id objIDs) < 0 then none
  else if num_haloes mt s = 0 then
    some (max_current_id + (countNeg (objs0Of mt s objIDs) : Int),
      m1Of mt s max_current_id objIDs)
  else if ¬ snap_check mt s then none
  else
    (propagateAll mt s (objs1Of mt s max_current_id objIDs)
        (m1Of mt s max_current_id objIDs)).map
      (fun m => (max_current_id + (countNeg (objs0Of mt s objIDs) : Int),
        fun t => if t = s then none else m t))

/-! ## Phase 2: `generate_mergelist.py` -/

/-- The per-snapshot auxiliary linkage data loaded by `load_aux_data`. -/
structure AuxData where
  vr_fading : List Nat
  vr_surviving : List Nat
  vr_merging : List Nat
  merge_targets_vr : List Int
  merge_targets_snap : List Int
  vr_numskip : List Int

/-- Inputs of the carrier propagation run: snapshot count, the per-snapshot
`MaxObjID` / `FirstNewObjID` attributes, the identifier tables and the
auxiliary linkage data (file loading is modelled as already done). -/
structure Pipeline where
  num_snaps : Nat
  maxObjId : Nat → Int
  firstNewObjId : Nat → Int
  objIDs : Nat → List Int
  aux : Nat → AuxData

/-- The lazily materialised family of dense carrier arrays: snapshot number to
(optionally) an array, modelled pointwise as a function on identifiers. -/
def CarrierMap : Type := Nat → Option (Nat → Int)

/-- Carrier-array length for snapshot `s`: `max_objid + 1`. -/
def clen (P : Pipeline) (s : Nat) : Nat := (P.maxObjId s + 1).toNat

/-- Initial carrier array for snapshot `t` (`setup_carrier_ids` body):
all `-1`, except that identifiers new at `t` immediately carry themselves. -/
def initCarrier (P : Pipeline) (t : Nat) : Nat → Int :=
  fun i => if P.firstNewObjId t ≤ (i : Int) then (i : Int) else -1

/-- `setup_carrier_ids`: create snapshot `t`'s carrier array if absent. -/
def setup_carrier_ids (P : Pipeline) (t : Nat) (c : CarrierMap) : CarrierMap :=
  if (c t).isSome then c
  else fun t' => if t' = t then some (initCarrier P t) else c t'

/-- Pointwise in-place update of the carrier array of snapshot `t`. -/
def updSnap (c : CarrierMap) (t : Nat) (f : (Nat → Int) → Nat → Int) : CarrierMap :=
  fun t' => if t' = t then (c t).map f else c t'

/-- Read entry `i` of the carrier array of snapshot `t` (junk if absent). -/
def cAt (c : CarrierMap) (t i : Nat) : Int := ((c t).getD (fun _ => -99)) i

/-- `c'` refines `c` leaving entry `i` of every existing array unchanged. -/
def KeepAt (i : Nat) (c c' : CarrierMap) : Prop :=
  ∀ t b, c t = some b → ∃ b', c' t = some b' ∧ b' i = b i

/-- Lines 71-74: the snapshots whose carrier arrays are set up when snapshot
`s` is processed: `s .. s + max(vr_numskip)`. -/
def setupList (P : Pipeline) (s : Nat) : List Nat :=
  List.range' s (npmax (P.aux s).vr_numskip + 1).toNat

/-- The carrier map after the setup loop of snapshot `s`. -/
def carrier1 (P : Pipeline) (s : Nat) (c : CarrierMap) : CarrierMap :=
  (setupList P s).foldl (fun c t => setup_carrier_ids P t c) c

/-- Snapshot `s`'s carrier array as read by the propagation rules
(after the setup loop). -/
def csOf (P : Pipeline) (s : Nat) (c : CarrierMap) : Nat → Int :=
  ((carrier1 P s c) s).getD (fun _ => -99)

/-- Lines 94-95: identifiers already faded at `s` stay faded at `s+1`. -/
def fadedHold (s len_s : Nat) (cs : Nat → Int) (c : CarrierMap) : CarrierMap :=
  updSnap c (s + 1) (fun old i => if i < len_s ∧ cs i = -10 then -10 else old i)

/-- `obj_status` after marking the identifiers of newly fading nodes
(lines 97-101): `-10` at `objIDs[isnap][vr_fading]`, `-1` elsewhere. -/
def status_fading (P : Pipeline) (s len_s : Nat) : Nat → Int :=
  scatterConst (fun _ => -1) len_s
    (((P.aux s).vr_fading).map (fun v => nthI (P.objIDs s) v)) (-10)

/-- Lines 102-104: every identifier currently carried by a newly fading
identifier is set to `-10` at `s+1`. -/
def fadingRule (P : Pipeline) (s len_s : Nat) (cs : Nat → Int) (c : CarrierMap) : CarrierMap :=
  updSnap c (s + 1) (fun old i =>
    if i < len_s ∧ npget (status_fading P s len_s) len_s (cs i) = -10 then -10 else old i)

/-- Lines 107-108: the surviving nodes with skip count exactly 1. -/
def ind_simple (P : Pipeline) (s : Nat) : List Nat :=
  ((P.aux s).vr_surviving).filter (fun v => decide (nthI ((P.aux s).vr_numskip) v = 1))

/-- `obj_status` after additionally marking simply surviving identifiers
(line 109): `1` at `objIDs[isnap][ind_simple]`. -/
def status_simple (P : Pipeline) (s len_s : Nat) : Nat → Int :=
  scatterConst (status_fading P s len_s) len_s
    ((ind_simple P s).map (fun v => nthI (P.objIDs s) v)) 1

/-- Lines 110-114: identifiers carried by a simply surviving identifier keep
their carrier value at `s+1`. -/
def simpleRule (P : Pipeline) (s len_s : Nat) (cs : Nat → Int) (c : CarrierMap) : CarrierMap :=
  updSnap c (s + 1) (fun old i =>
    if i < len_s ∧ npget (status_simple P s len_s) len_s (cs i) = 1 ∧ 0 ≤ cs i
    then cs i else old i)

/-- Line 121: the nodes with skip count exactly `k`. -/
def ind_iskip (P : Pipeline) (s : Nat) (k : Nat) : List Nat :=
  (List.range (P.objIDs s).length).filter
    (fun v => decide (nthI ((P.aux s).vr_numskip) v = (k : Int)))

/-- `obj_status` after marking the identifiers of the skip-`k` nodes
(line 128). -/
def skipStatus (P : Pipeline) (s len_s : Nat) (st : Nat → Int) (k : Nat) : Nat → Int :=
  scatterConst st len_s ((ind_iskip P s k).map (fun v => nthI (P.objIDs s) v)) (k : Int)

/-- Lines 129-132: copy the carrier value of everything carried by a skip-`k`
identifier unchanged into each of snapshots `s+1 .. s+k`. -/
def skipWrite (s len_s : Nat) (cs stk : Nat → Int) (k : Nat) (c : CarrierMap) : CarrierMap :=
  (List.range' (s + 1) k).foldl
    (fun c t => updSnap c t (fun old i =>
      if i < len_s ∧ npget stk len_s (cs i) = (k : Int) ∧ 0 ≤ cs i then cs i else old i))
    c

/-- One iteration of the skip loop (lines 120-132) at skip count `k`:
mark the skip-`k` identifiers in `obj_status` (after the line-126 sanity
check, whose failure is fatal) and copy forward everything they carry. -/
def skipIter (P : Pipeline) (s len_s : Nat) (cs : Nat → Int)
    (acc : (Nat → Int) × CarrierMap) (k : Nat) : Option ((Nat → Int) × CarrierMap) :=
  if ind_iskip P s k = [] then some acc
  else if (ind_iskip P s k).any
      (fun v => npget acc.1 len_s (nthI (P.objIDs s) v) == (k : Int)) then none
  else
    some (skipStatus P s len_s acc.1 k,
      skipWrite s len_s cs (skipStatus P s len_s acc.1 k) k acc.2)

/-- The whole skip loop: `for iskip in range(2, max_n_skip + 1)`. -/
def skipPhase (P : Pipeline) (s len_s : Nat) (cs : Nat → Int)
    (st0 : Nat → Int) (c : CarrierMap) : Option ((Nat → Int) × CarrierMap) :=
  (List.range' 2 (npmax ((P.aux s).vr_numskip) - 1).toNat).foldlM
    (skipIter P s len_s cs) (st0, c)

/-- `subind_tsnap`: the positions of the merging entries whose target
snapshot is `t`. -/
def mergeSubind (P : Pipeline) (s t : Nat) : List Nat :=
  (List.range ((P.aux s).merge_targets_snap).length).filter
    (fun j => decide (nthI ((P.aux s).merge_targets_snap) j = (t : Int)))

/-- The scratch-map assignments of merge group `t`: merging identifier
(`objIDs[isnap][vr_merging[j]]`) paired with the destination identifier read
from snapshot `t`'s table (`objIDs[itsnap][merge_targets_vr[j]]`). -/
def mergePairs (P : Pipeline) (s t : Nat) : List (Int × Int) :=
  (mergeSubind P s t).map (fun j =>
    (nthI (P.objIDs s) (((P.aux s).vr_merging).getD j 0),
     nthIpy (P.objIDs t) (nthI ((P.aux s).merge_targets_vr) j)))

/-- The scratch map of merge group `t`, rebuilt from the fully reset state
`obj_status[:] = -1` (lines 167-169). -/
def mergeStatus (P : Pipeline) (s len_s t : Nat) : Nat → Int :=
  scatterVals (fun _ => -1) len_s (mergePairs P s t)

/-- One merge-target snapshot group (lines 162-172): redirect everything
carried by a merging identifier of group `t` to the destination at `t`. -/
def mergeGroup (P : Pipeline) (s len_s : Nat) (cs : Nat → Int) (t : Nat)
    (c : CarrierMap) : CarrierMap :=
  if mergeSubind P s t = [] then c
  else
    updSnap c t (fun old i =>
      if i < len_s ∧ 0 ≤ npget (mergeStatus P s len_s t) len_s (cs i) ∧ 0 ≤ cs i
      then npget (mergeStatus P s len_s t) len_s (cs i) else old i)

/-- The merge-target snapshots processed for snapshot `s`, in increasing
order: `range(isnap + 1, max(merge_targets_snap) + 1)`. -/
def mergeSnapList (P : Pipeline) (s : Nat) : List Nat :=
  List.range' (s + 1) ((npmax ((P.aux s).merge_targets_snap) - (s : Int)).toNat)

/-- The whole merging phase (lines 160-172). -/
def mergePhase (P : Pipeline) (s len_s : Nat) (cs : Nat → Int) (c : CarrierMap) : CarrierMap :=
  if (P.aux s).merge_targets_snap = [] then c
  else (mergeSnapList P s).foldl (fun c t => mergeGroup P s len_s cs t c) c

/-- The carrier map after the three `s+1` rules (lines 94-114): the faded
hold, the newly-fading rule and the simple-survival rule, in source order. -/
def c4Of (P : Pipeline) (s : Nat) (c : CarrierMap) : CarrierMap :=
  simpleRule P s (clen P s) (csOf P s c)
    (fadingRule P s (clen P s) (csOf P s c)
      (fadedHold s (clen P s) (csOf P s c) (carrier1 P s c)))

/-- All carrier-propagation rules of one snapshot, in source order
(lines 94-172). -/
def afterRules (P : Pipeline) (s : Nat) (c : CarrierMap) : Option CarrierMap :=
  (skipPhase P s (clen P s) (csOf P s c) (status_simple P s (clen P s)) (c4Of P s c)).map
    (fun q => mergePhase P s (clen P s) (csOf P s c) q.2)

/-- The carrier state: the live arrays and the persisted
(`MergeLists/CarrierIDs_xxxx`) arrays. -/
structure CState where
  carrier : CarrierMap
  written : CarrierMap

/-- `process_snapshot` of `generate_mergelist.py`: empty snapshots
short-circuit; otherwise set up the needed carrier arrays, run the
line-80 unresolved-sentinel check (fatal on failure), persist snapshot `s`'s
carrier array, return early on the final snapshot, and otherwise apply the
propagation rules and free snapshot `s`'s array (lines 197-199).
The reverse-index output (lines 174-195) has no effect on the carrier state
and is not modelled. -/
def writtenOf (P : Pipeline) (s : Nat) (st : CState) : CarrierMap :=
  fun t => if t = s then some (csOf P s st.carrier) else st.written t

def process_snapshot (P : Pipeline) (s : Nat) (st : CState) : Option CState :=
  if (P.objIDs s).length = 0 then some st
  else if (List.range (clen P s)).any (fun i => csOf P s st.carrier i == -1) then none
  else if s = P.num_snaps - 1 then some ⟨carrier1 P s st.carrier, writtenOf P s st⟩
  else
    (afterRules P s st.carrier).map
      (fun c' => ⟨fun t => if t = s then none else c' t, writtenOf P s st⟩)

/-- The main loop of `generate_mergelist.py` restricted to `k` snapshots
starting at `s`. -/
def runSteps (P : Pipeline) : Nat → Nat → CState → Option CState
  | _, 0, st => some st
  | s, k + 1, st => (process_snapshot P s st).bind (runSteps P (s + 1) k)

/-! ## Concrete instances used to evaluate the definitions -/

/-- A small coherent merger tree: snapshot 0 holds a 0-skip main progenitor
(index 0), a fading node (index 1), a skip-2 main progenitor (index 2) and a
node merging into snapshot 2 (index 3). -/
def exMT : MergerTree :=
  { vrid := [1, 2, 3, 1, 1, 4]
    isnap := [0, 0, 0, 1, 2, 0]
    descid := [4, -1, 5, -1, -1, 5]
    topid := [9, 9, 9, 9, 5, 9]
    soap := fun s => if s = 0 then [0, 1, 2, 5] else if s = 1 then [3] else
      if s = 2 then [4] else []
    num_snaps := 3 }

/-- A merger tree in which two main progenitors of snapshot 0 target the same
descendant slot of snapshot 1. -/
def exMTdup : MergerTree :=
  { vrid := [1, 2, 1]
    isnap := [0, 0, 1]
    descid := [3, 3, -1]
    topid := [9, 9, 9]
    soap := fun s => if s = 0 then [0, 1] else if s = 1 then [2] else []
    num_snaps := 2 }

/-- A merger tree whose snapshot-0 VR IDs are not the contiguous set `1..2`
(they are 5 and 7) while the reported snapshot numbers are consistent. -/
def exMTbad : MergerTree :=
  { vrid := [5, 7]
    isnap := [0, 0]
    descid := [-1, -1]
    topid := [1, 1]
    soap := fun s => if s = 0 then [0, 1] else []
    num_snaps := 1 }

/-- A merger tree whose single snapshot-0 entry reports snapshot number 5. -/
def exMTbad2 : MergerTree :=
  { vrid := [1]
    isnap := [5]
    descid := [-1]
    topid := [1]
    soap := fun s => if s = 0 then [0] else []
    num_snaps := 1 }

/-- Linkage data of `exP` snapshot 0: node 1 fades, nodes 0 and 2 are main
progenitors, node 2 skips 2 snapshots. -/
def exAux0 : AuxData := ⟨[1], [0, 2], [], [], [], [1, -1, 2]⟩

/-- Linkage data of `exP` snapshot 1: node 0 merges into snapshot 2 node 0,
node 1 simply survives. -/
def exAux1 : AuxData := ⟨[], [1], [0], [0], [2], [1, 1]⟩

/-- Linkage data of `exP` snapshot 2: both nodes simply survive. -/
def exAux2 : AuxData := ⟨[], [0, 1], [], [], [], [1, 1]⟩

/-- Linkage data of `exP` snapshot 3 (final snapshot, all nodes fade). -/
def exAux3 : AuxData := ⟨[0, 1], [], [], [], [], [-4, -4]⟩

/-- A small carrier-propagation input with four snapshots, exercising fading,
simple survival, a 2-snapshot skip and one merger. -/
def exP : Pipeline :=
  { num_snaps := 4
    maxObjId := fun s => if s = 0 then 2 else 3
    firstNewObjId := fun s => if s = 0 then 0 else if s = 1 then 3 else 4
    objIDs := fun s => if s = 0 then [0, 1, 2] else if s = 1 then [0, 3] else [3, 2]
    aux := fun s => if s = 0 then exAux0 else if s = 1 then exAux1 else
      if s = 2 then exAux2 else exAux3 }

/-- A carrier state for `exP` before snapshot 0 with all three snapshot-0
identifiers self-carried. -/
def stSelf0 : CState :=
  ⟨fun t => if t = 0 then some (fun i => nthI [0, 1, 2] i) else none, fun _ => none⟩

/-- The carrier state of `exP` between snapshots 0 and 1: identifier 1 has
faded, identifier 2 is being skip-carried across snapshot 1. -/
def stMid : CState :=
  ⟨fun t => if t = 1 then some (fun i => nthI [0, -10, 2, 3] i) else
      if t = 2 then some (fun i => nthI [-1, -1, 2, -1] i) else none,
   fun _ => none⟩

/-- A carrier state for `exP` whose snapshot-0 array is stuck at the
unresolved sentinel. -/
def stBad : CState :=
  ⟨fun t => if t = 0 then some (fun _ => -1) else none, fun _ => none⟩

/-- Linkage data of `exP5` snapshot 0: node 1 (identifier 1) fades, node 0
simply survives. -/
def exAux5 : AuxData := ⟨[1], [0], [], [], [], [1, -1]⟩

/-- A two-identifier carrier-propagation input in which identifier 1 fades at
snapshot 0. -/
def exP5 : Pipeline :=
  { num_snaps := 3
    maxObjId := fun _ => 1
    firstNewObjId := fun s => if s = 0 then 0 else 2
    objIDs := fun _ => [0, 1]
    aux := fun _ => exAux5 }

/-- A carrier state for `exP5` in which identifier 0 is carried by
identifier 1 (and identifier 1 carries itself). -/
def st5 : CState :=
  ⟨fun t => if t = 0 then some (fun i => nthI [1, 1] i) else none, fun _ => none⟩

/-! ## Lemmas about identifier assignment (`generate_objids.py` lines 86-90) -/

theorem assignNewIds_length (l : List Int) (next : Int) :
    (assignNewIds l next).length = l.length := by
  induction l generalizing next with
  | nil => rfl
  | cons x xs ih => by_cases h : x < 0 <;> simp [assignNewIds, h, ih]

theorem countNeg_cons (x : Int) (xs : List Int) :
    countNeg (x :: xs) = (if x < 0 then 1 else 0) + countNeg xs := by
  by_cases h : x < 0 <;> simp [countNeg, List.filter_cons, h, Nat.add_comm]

theorem countNeg_append (a b : List Int) :
    countNeg (a ++ b) = countNeg a + countNeg b := by
  simp [countNeg, List.filter_append]

theorem assignNewIds_get (l : List Int) (next : Int) (i : Nat) (hi : i < l.length) :
    nthI (assignNewIds l next) i =
      if nthI l i < 0 then next + (countNeg (l.take i) : Int) else nthI l i := by
  induction l generalizing next i with
  | nil => simp at hi
  | cons x xs ih =>
    cases i with
    | zero =>
      by_cases h : x < 0 <;> simp [assignNewIds, nthI, h, countNeg]
    | succ n =>
      have hn : n < xs.length := by simpa using hi
      by_cases h : x < 0
      · have ihn := ih (next + 1) n hn
        simp only [assignNewIds, if_pos h, nthI, List.getD_cons_succ,
          List.take_succ_cons, countNeg_cons] at ihn ⊢
        rw [ihn]
        split
        · push_cast; ring
        · rfl
      · have ihn := ih next n hn
        simp only [assignNewIds, if_neg h, nthI, List.getD_cons_succ,
          List.take_succ_cons, countNeg_cons] at ihn ⊢
        rw [ihn]
        split
        · push_cast; ring
        · rfl

theorem countNeg_take_lt (l : List Int) (i j : Nat) (hij : i < j) (hi : i < l.length)
    (hneg : nthI l i < 0) : countNeg (l.take i) < countNeg (l.take j) := by
  have hj : j = i + (j - i) := by omega
  have h1 : l.take j = l.take i ++ (l.drop i).take (j - i) := by
    conv_lhs => rw [hj]
    rw [List.take_add]
  have h2 : l.drop i = l[i] :: l.drop (i + 1) := List.drop_eq_getElem_cons hi
  have h3 : ∃ k, j - i = k + 1 := ⟨j - i - 1, by omega⟩
  obtain ⟨k, hk⟩ := h3
  have h4 : (l.drop i).take (j - i) = l[i] :: (l.drop (i + 1)).take k := by
    rw [h2, hk, List.take_succ_cons]
  have h5 : nthI l i = l[i] := List.getD_eq_getElem l (-99) hi
  rw [h1, countNeg_append, h4, countNeg_cons, if_pos (h5 ▸ hneg)]
  omega

theorem countNeg_take_lt_total (l : List Int) (i : Nat) (hi : i < l.length)
    (hneg : nthI l i < 0) : countNeg (l.take i) < countNeg l := by
  have := countNeg_take_lt l i l.length hi hi hneg
  rwa [List.take_length] at this

/-- Claim C1: for every snapshot, every node lacking an identifier at the
start of processing is assigned the next value of the single global counter
(`max_current_id`) in structural-index order (slot `i` receives
`max_current_id + 1 +` the number of unassigned slots before `i`); already
assigned slots are never reassigned; the freshly assigned values are
pairwise distinct, all strictly above the previous counter value and at most
the new counter value, so the counter never decreases and strictly increases
whenever an identifier is allocated — values allocated at different
processing steps can therefore never collide. -/
theorem C1_identifier_assignment (objs : List Int) (maxCur : Int) (i : Nat)
    (hi : i < objs.length) :
    (assignNewIds objs (maxCur + 1)).length = objs.length ∧
    (0 ≤ nthI objs i → nthI (assignNewIds objs (maxCur + 1)) i = nthI objs i) ∧
    (nthI objs i < 0 →
      nthI (assignNewIds objs (maxCur + 1)) i
          = maxCur + 1 + (countNeg (objs.take i) : Int) ∧
      maxCur < nthI (assignNewIds objs (maxCur + 1)) i ∧
      nthI (assignNewIds objs (maxCur + 1)) i ≤ maxCur + (countNeg objs : Int)) ∧
    (∀ j, j < objs.length → i ≠ j → nthI objs i < 0 → nthI objs j < 0 →
      nthI (assignNewIds objs (maxCur + 1)) i ≠ nthI (assignNewIds objs (maxCur + 1)) j) ∧
    maxCur ≤ maxCur + (countNeg objs : Int) ∧
    (nthI objs i < 0 → maxCur < maxCur + (countNeg objs : Int)) := by
  have hget := assignNewIds_get objs (maxCur + 1) i hi
  refine ⟨assignNewIds_length objs (maxCur + 1), ?_, ?_, ?_, ?_, ?_⟩
  · intro h0
    rw [hget, if_neg (by omega)]
  · intro hneg
    have hlt := countNeg_take_lt_total objs i hi hneg
    rw [hget, if_pos hneg]
    refine ⟨rfl, by omega, ?_⟩
    have hle : (countNeg (objs.take i) : Int) + 1 ≤ (countNeg objs : Int) := by
      exact_mod_cast hlt
    omega
  · intro j hj hij hnegi hnegj
    have hgetj := assignNewIds_get objs (maxCur + 1) j hj
    rw [hget, if_pos hnegi, hgetj, if_pos hnegj]
    rcases Nat.lt_or_ge i j with h | h
    · have hlt := countNeg_take_lt objs i j h hi hnegi
      have hlt' : (countNeg (objs.take i) : Int) < (countNeg (objs.take j) : Int) := by
        exact_mod_cast hlt
      omega
    · have hj' : j < i := by omega
      have hlt := countNeg_take_lt objs j i hj' hj hnegj
      have hlt' : (countNeg (objs.take j) : Int) < (countNeg (objs.take i) : Int) := by
        exact_mod_cast hlt
      omega
  · omega
  · intro hneg
    have hlt := countNeg_take_lt_total objs i hi hneg
    have h1 : 1 ≤ (countNeg objs : Int) := by
      exact_mod_cast Nat.one_le_iff_ne_zero.mpr (by omega)
    omega

/-- Witness for C1: evaluating the assignment at `objs = [5, -1, -1]`,
counter `5`, slot `1`. -/
theorem C1_identifier_assignment_witness :
    1 < ([5, -1, -1] : List Int).length ∧
    (nthI ([5, -1, -1] : List Int) 1 < 0 →
      nthI (assignNewIds [5, -1, -1] (5 + 1)) 1
          = 5 + 1 + (countNeg (([5, -1, -1] : List Int).take 1) : Int) ∧
      5 < nthI (assignNewIds [5, -1, -1] (5 + 1)) 1 ∧
      nthI (assignNewIds [5, -1, -1] (5 + 1)) 1 ≤ 5 + (countNeg ([5, -1, -1] : List Int) : Int)) :=
  ⟨by decide, (C1_identifier_assignment [5, -1, -1] 5 1 (by decide)).2.2.1⟩

/-! ## Lemmas about descendant classification (`generate_objids.py` lines 127-150) -/

theorem mem_ind_is_main_prog (mt : MergerTree) (s v : Nat) :
    v ∈ ind_is_main_prog mt s ↔
      v < num_haloes mt s ∧ 0 ≤ desc_mtind mt (mtInd mt s v) ∧
        (mtInd mt s v : Int) ≤ nthI mt.topid (desc_mtind mt (mtInd mt s v)).toNat - 1 := by
  simp [ind_is_main_prog, is_main_prog, List.mem_filter, List.mem_range, and_assoc]

theorem mem_ind_is_merging (mt : MergerTree) (s v : Nat) :
    v ∈ ind_is_merging mt s ↔
      v < num_haloes mt s ∧ 0 ≤ desc_mtind mt (mtInd mt s v) ∧
        (mtInd mt s v : Int) > nthI mt.topid (desc_mtind mt (mtInd mt s v)).toNat - 1 := by
  simp [ind_is_merging, is_merging, List.mem_filter, List.mem_range, and_assoc]

theorem mem_ind_no_desc (mt : MergerTree) (s v : Nat) :
    v ∈ ind_no_desc mt s ↔ v < num_haloes mt s ∧ desc_mtind mt (mtInd mt s v) < 0 := by
  simp [ind_no_desc, List.mem_filter, List.mem_range]

/-- Claim C2: a node with a descendant (non-negative resolved descendant
index) is classified a main progenitor iff its own structural index is
`≤` its descendant's top-leaf index `- 1`, and merging otherwise; each node
with a descendant gets exactly one of the two classifications, and each node
without a descendant is classified fading. -/
theorem C2_classification (mt : MergerTree) (s v : Nat) (hv : v < num_haloes mt s) :
    (0 ≤ desc_mtind mt (mtInd mt s v) →
      ((v ∈ ind_is_main_prog mt s ↔
          (mtInd mt s v : Int) ≤ nthI mt.topid (desc_mtind mt (mtInd mt s v)).toNat - 1) ∧
       (v ∈ ind_is_merging mt s ↔
          ¬ (mtInd mt s v : Int) ≤ nthI mt.topid (desc_mtind mt (mtInd mt s v)).toNat - 1) ∧
       (v ∈ ind_is_main_prog mt s ∨ v ∈ ind_is_merging mt s) ∧
       ¬ (v ∈ ind_is_main_prog mt s ∧ v ∈ ind_is_merging mt s) ∧
       v ∉ ind_no_desc mt s)) ∧
    (desc_mtind mt (mtInd mt s v) < 0 →
      v ∈ ind_no_desc mt s ∧ v ∉ ind_is_main_prog mt s ∧ v ∉ ind_is_merging mt s) := by
  simp only [mem_ind_is_main_prog, mem_ind_is_merging, mem_ind_no_desc]
  constructor
  · intro hd
    refine ⟨⟨fun h => h.2.2, fun h => ⟨hv, hd, h⟩⟩,
            ⟨fun h => by omega, fun h => ⟨hv, hd, by omega⟩⟩, ?_, ?_, ?_⟩
    · rcases le_or_lt ((mtInd mt s v : Int))
        (nthI mt.topid (desc_mtind mt (mtInd mt s v)).toNat - 1) with h | h
      · exact Or.inl ⟨hv, hd, h⟩
      · exact Or.inr ⟨hv, hd, by omega⟩
    · rintro ⟨⟨-, -, h1⟩, ⟨-, -, h2⟩⟩; omega
    · rintro ⟨-, h⟩; omega
  · intro hd
    refine ⟨⟨hv, hd⟩, ?_, ?_⟩
    · rintro ⟨-, h, -⟩; omega
    · rintro ⟨-, h, -⟩; omega

/-- Witness for C2: node 0 of snapshot 0 of `exMT` has a descendant and is
classified exactly once. -/
theorem C2_classification_witness :
    0 < num_haloes exMT 0 ∧
    (0 ∈ ind_is_main_prog exMT 0 ∨ 0 ∈ ind_is_merging exMT 0) :=
  ⟨by decide, ((C2_classification exMT 0 0 (by decide)).1 (by decide)).2.2.1⟩

/-- Counterexample for C7: in `exMT`, node 2 of snapshot 0 is a main
progenitor whose descendant lies two snapshots ahead (skip count 2), yet it
is a member of the emitted surviving set, so the surviving set does not
contain exactly the 0-skip main progenitors. -/
theorem C7_counterexample :
    ¬ (∀ v, v ∈ aux_surviving exMT 0 → nthI (aux_numskip exMT 0) v = 1) := by
  intro h
  exact absurd (h 2 (by decide)) (by decide)

/-- Claim C7 (amended): the surviving node-index set emitted in a snapshot's
linkage contains all main progenitors, regardless of skip count; the
per-node skip count `descendant snapshot − current snapshot` is emitted
alongside, and the 0-skip main progenitors are exactly the emitted surviving
nodes whose skip count equals 1. -/
theorem C7_surviving_amended (mt : MergerTree) (s v : Nat) (hv : v < num_haloes mt s) :
    (v ∈ aux_surviving mt s ↔ is_main_prog mt (mtInd mt s v) = true) ∧
    nthI (aux_numskip mt s) v = desc_snap mt (mtInd mt s v) - (s : Int) ∧
    ((v ∈ aux_surviving mt s ∧ nthI (aux_numskip mt s) v = 1) ↔
      (is_main_prog mt (mtInd mt s v) = true ∧
        desc_snap mt (mtInd mt s v) = (s : Int) + 1)) := by
  have h1 : v ∈ aux_surviving mt s ↔ is_main_prog mt (mtInd mt s v) = true := by
    rw [aux_surviving, ind_is_main_prog]
    simp [List.mem_filter, List.mem_range, hv]
  have hlen : v < ((List.range (num_haloes mt s)).map
      (fun v => desc_snap mt (mtInd mt s v) - (s : Int))).length := by simpa using hv
  have h2 : nthI (aux_numskip mt s) v = desc_snap mt (mtInd mt s v) - (s : Int) := by
    rw [aux_numskip, nthI, List.getD_eq_getElem _ _ hlen, List.getElem_map]
    simp
  refine ⟨h1, h2, ?_⟩
  rw [h1, h2]
  constructor
  · rintro ⟨hm, hn⟩; exact ⟨hm, by omega⟩
  · rintro ⟨hm, hn⟩; exact ⟨hm, by omega⟩

/-- Witness for C7 (amended): node 0 of snapshot 0 of `exMT`. -/
theorem C7_surviving_amended_witness :
    0 < num_haloes exMT 0 ∧
    (0 ∈ aux_surviving exMT 0 ↔ is_main_prog exMT (mtInd exMT 0 0) = true) :=
  ⟨by decide, (C7_surviving_amended exMT 0 0 (by decide)).1⟩

/-- Claim C9 (evaluating the code at inputs exercising both structural
checks): for `exMTbad` the per-node snapshot numbers are consistent but the
VR IDs are not the contiguous set `1..num_haloes`; the line-121 check fails,
yet `process_snapshot` completes successfully — the source only prints a
message there and does not abort.  For `exMTbad2` the reported snapshot
number mismatches and processing does abort. -/
theorem C9_structural_checks :
    snap_check exMTbad 0 = true ∧
    vrids_contiguous exMTbad 0 = false ∧
    (process_snapshot_objids exMTbad 0 (-1) (fun _ => none)).isSome = true ∧
    snap_check exMTbad2 0 = false ∧
    (process_snapshot_objids exMTbad2 0 (-1) (fun _ => none)).isNone = true := by
  refine ⟨by decide, by decide, by rfl, by decide, by rfl⟩

/-! ## Lemmas about identifier propagation (`generate_objids.py` lines 160-184) -/

theorem foldlM_option_none {α β : Type} (f : β → α → Option β) (t : α) :
    ∀ (L : List α) (b : β), t ∈ L → (∀ b', f b' t = none) → L.foldlM f b = none := by
  intro L
  induction L with
  | nil => intro b h _; simp at h
  | cons x L ih =>
    intro b hmem hbad
    rcases List.mem_cons.mp hmem with rfl | hmem'
    · simp [List.foldlM_cons, hbad b]
    · cases hfx : f b x with
      | none => simp [List.foldlM_cons, hfx]
      | some b₂ =>
        simp only [List.foldlM_cons, hfx, Option.some_bind]
        exact ih b₂ hmem' hbad

theorem propagate_step_none (mt : MergerTree) (s t : Nat) (objs_s : List Int)
    (hdup : ¬ (group_targets mt s t).Nodup) (m : Nat → Option (List Int)) :
    propagate_step mt s objs_s m t = none := by
  simp [propagate_step, propagate_group, hdup]

theorem propagate_step_other (mt : MergerTree) (s t t' : Nat) (objs_s : List Int)
    (m m₂ : Nat → Option (List Int)) (h : propagate_step mt s objs_s m t = some m₂)
    (hne : t' ≠ t) : m₂ t' = m t' := by
  simp only [propagate_step, Option.map_eq_some'] at h
  obtain ⟨tbl', -, rfl⟩ := h
  simp [hne]

theorem propagate_step_self (mt : MergerTree) (s t : Nat) (objs_s : List Int)
    (m m₂ : Nat → Option (List Int)) (h : propagate_step mt s objs_s m t = some m₂) :
    ∃ tbl', propagate_group mt s t objs_s
        ((m t).getD (List.replicate (num_haloes mt t) (-1))) = some tbl' ∧
      m₂ t = some tbl' := by
  simp only [propagate_step, Option.map_eq_some'] at h
  obtain ⟨tbl', hg, rfl⟩ := h
  exact ⟨tbl', hg, by simp⟩

theorem propagateFold_notmem (mt : MergerTree) (s : Nat) (objs_s : List Int) (t : Nat) :
    ∀ (L : List Nat) (m m' : Nat → Option (List Int)),
      L.foldlM (propagate_step mt s objs_s) m = some m' → t ∉ L → m' t = m t := by
  intro L
  induction L with
  | nil =>
    intro m m' h _
    simp only [List.foldlM_nil] at h
    cases h
    rfl
  | cons x L ih =>
    intro m m' h hmem
    rw [List.foldlM_cons] at h
    cases hfx : propagate_step mt s objs_s m x with
    | none => rw [hfx] at h; simp at h
    | some m₂ =>
      rw [hfx] at h
      have h2 : List.foldlM (propagate_step mt s objs_s) m₂ L = some m' := h
      have h1 := ih m₂ m' h2 (fun hc => hmem (List.mem_cons_of_mem _ hc))
      rw [h1]
      exact propagate_step_other mt s x t objs_s m m₂ hfx
        (fun hc => hmem (hc ▸ List.mem_cons_self x L))

theorem propagateFold_at_mem (mt : MergerTree) (s : Nat) (objs_s : List Int) (t : Nat) :
    ∀ (L : List Nat) (m m' : Nat → Option (List Int)),
      L.foldlM (propagate_step mt s objs_s) m = some m' → L.Nodup → t ∈ L →
      ∃ tbl', propagate_group mt s t objs_s
          ((m t).getD (List.replicate (num_haloes mt t) (-1))) = some tbl' ∧
        m' t = some tbl' := by
  intro L
  induction L with
  | nil => intro m m' _ _ h; simp at h
  | cons x L ih =>
    intro m m' h hnd hmem
    rw [List.foldlM_cons] at h
    cases hfx : propagate_step mt s objs_s m x with
    | none => rw [hfx] at h; simp at h
    | some m₂ =>
      rw [hfx] at h
      have h2 : List.foldlM (propagate_step mt s objs_s) m₂ L = some m' := h
      rcases List.mem_cons.mp hmem with rfl | hmem'
      · obtain ⟨tbl', hg, hm₂⟩ := propagate_step_self mt s t objs_s m m₂ hfx
        have hnotin : t ∉ L := (List.nodup_cons.mp hnd).1
        have hpres := propagateFold_notmem mt s objs_s t L m₂ m' h2 hnotin
        exact ⟨tbl', hg, hpres ▸ hm₂⟩
      · have hne : t ≠ x := by
          intro hc
          exact (List.nodup_cons.mp hnd).1 (hc ▸ hmem')
        have hstep := propagate_step_other mt s x t objs_s m m₂ hfx hne
        have hres := ih m₂ m' h2 (List.nodup_cons.mp hnd).2 hmem'
        rwa [hstep] at hres

theorem nthI_set_self (l : List Int) (j : Nat) (v : Int) (hj : j < l.length) :
    nthI (l.set j v) j = v := by
  rw [nthI, List.getD_eq_getElem _ _ (by simpa using hj)]
  exact List.getElem_set_self _

theorem nthI_set_ne (l : List Int) (k j : Nat) (v : Int) (hne : k ≠ j) :
    nthI (l.set k v) j = nthI l j := by
  by_cases hj : j < l.length
  · rw [nthI, List.getD_eq_getElem _ _ (by simpa using hj), nthI,
      List.getD_eq_getElem _ _ hj]
    exact List.getElem_set_ne hne _
  · rw [nthI, List.getD_eq_default _ _ (by simpa using Nat.le_of_not_lt hj), nthI,
      List.getD_eq_default _ _ (Nat.le_of_not_lt hj)]

theorem setFold_length (objs : List Int) (dv : Nat → Int) :
    ∀ (L : List Nat) (tbl : List Int),
      (L.foldl (fun l w => setNthI l (dv w) (nthI objs w)) tbl).length = tbl.length := by
  intro L
  induction L with
  | nil => intro tbl; rfl
  | cons x L ih =>
    intro tbl
    rw [List.foldl_cons, ih]
    simp [setNthI]

theorem setFold_miss (objs : List Int) (dv : Nat → Int) :
    ∀ (L : List Nat) (tbl : List Int) (j0 : Nat),
      (∀ w ∈ L, pyIdx tbl.length (dv w) ≠ j0) →
      nthI (L.foldl (fun l w => setNthI l (dv w) (nthI objs w)) tbl) j0 = nthI tbl j0 := by
  intro L
  induction L with
  | nil => intro tbl j0 _; rfl
  | cons x L ih =>
    intro tbl j0 hm
    rw [List.foldl_cons]
    have hlen : (setNthI tbl (dv x) (nthI objs x)).length = tbl.length := by simp [setNthI]
    rw [ih (setNthI tbl (dv x) (nthI objs x)) j0
      (by rw [hlen]; exact fun w hw => hm w (List.mem_cons_of_mem _ hw))]
    exact nthI_set_ne _ _ _ _ (hm x (List.mem_cons_self x L))

theorem setFold_getD (objs : List Int) (dv : Nat → Int) :
    ∀ (L : List Nat) (tbl : List Int) (j0 : Nat) (d : Int), j0 < tbl.length →
      (∃ w ∈ L, pyIdx tbl.length (dv w) = j0) →
      (∀ w ∈ L, pyIdx tbl.length (dv w) = j0 → nthI objs w = d) →
      nthI (L.foldl (fun l w => setNthI l (dv w) (nthI objs w)) tbl) j0 = d := by
  intro L
  induction L with
  | nil => intro tbl j0 d _ hex _; simp at hex
  | cons x L ih =>
    intro tbl j0 d hj0 hex hall
    rw [List.foldl_cons]
    have hlen : (setNthI tbl (dv x) (nthI objs x)).length = tbl.length := by simp [setNthI]
    by_cases hexL : ∃ w ∈ L, pyIdx tbl.length (dv w) = j0
    · exact ih (setNthI tbl (dv x) (nthI objs x)) j0 d (by omega)
        (by rw [hlen]; exact hexL)
        (by rw [hlen]; exact fun w hw => hall w (List.mem_cons_of_mem _ hw))
    · push_neg at hexL
      rw [setFold_miss objs dv L _ j0 (by rw [hlen]; exact hexL)]
      obtain ⟨w, hw, hhit⟩ := hex
      rcases List.mem_cons.mp hw with rfl | hw'
      · have hd := hall w hw hhit
        rw [setNthI, ← hhit, ← hd]
        exact nthI_set_self tbl _ _ (by omega)
      · exact absurd hhit (hexL w hw')

theorem unique_desc_snaps_nodup (mt : MergerTree) (s : Nat) :
    (unique_desc_snaps mt s).Nodup :=
  List.Nodup.filter _ (List.nodup_range _)

theorem unique_desc_snaps_nil (mt : MergerTree) (s : Nat) (h : num_haloes mt s = 0) :
    unique_desc_snaps mt s = [] := by
  simp [unique_desc_snaps, h]

theorem ind_to_dsnap_nodup (mt : MergerTree) (s t : Nat) :
    (ind_to_dsnap mt s t).Nodup :=
  List.Nodup.filter _ (List.Nodup.filter _ (List.nodup_range _))

theorem pyIdx_nonneg (len : Nat) (i : Int) (h : 0 ≤ i) : pyIdx len i = i.toNat := by
  rw [pyIdx, if_neg (by omega)]

/-- Claim C8: for a target snapshot `t` of snapshot `s`'s main progenitors,
a duplicate target slot inside the `s → t` write group is detected before
any write and is fatal (`process_snapshot` aborts); otherwise each targeted
slot of snapshot `t`'s table receives the identifier of its unique main
progenitor. -/
theorem C8_duplicate_target (mt : MergerTree) (s : Nat) (objs_s : List Int)
    (m : Nat → Option (List Int)) (t : Nat) (ht : t ∈ unique_desc_snaps mt s) :
    (¬ (group_targets mt s t).Nodup →
      propagateAll mt s objs_s m = none ∧
      ∀ (maxCur : Int) (objIDs : Nat → Option (List Int)),
        process_snapshot_objids mt s maxCur objIDs = none) ∧
    (∀ m', propagateAll mt s objs_s m = some m' →
      ∀ v ∈ ind_to_dsnap mt s t,
        (∀ w ∈ ind_to_dsnap mt s t, 0 ≤ desc_vrind mt (mtInd mt s w)) →
        (desc_vrind mt (mtInd mt s v)).toNat
            < ((m t).getD (List.replicate (num_haloes mt t) (-1))).length →
        ∃ tbl', m' t = some tbl' ∧
          nthI tbl' (desc_vrind mt (mtInd mt s v)).toNat = nthI objs_s v) := by
  constructor
  · intro hdup
    have hnone : ∀ (objs' : List Int) (m₀ : Nat → Option (List Int)),
        propagateAll mt s objs' m₀ = none := fun objs' m₀ =>
      foldlM_option_none (propagate_step mt s objs') t (unique_desc_snaps mt s) m₀ ht
        (fun b' => propagate_step_none mt s t objs' hdup b')
    refine ⟨hnone objs_s m, ?_⟩
    intro maxCur objIDs
    have hnh : num_haloes mt s ≠ 0 := by
      intro h0
      rw [unique_desc_snaps_nil mt s h0] at ht
      simp at ht
    rw [process_snapshot_objids]
    split_ifs with h1 h2
    · rfl
    · rw [hnone]
      rfl
    · rfl
  · intro m' hres v hv hpos hlt
    obtain ⟨tbl', hg, hmt⟩ := propagateFold_at_mem mt s objs_s t (unique_desc_snaps mt s)
      m m' hres (unique_desc_snaps_nodup mt s) ht
    refine ⟨tbl', hmt, ?_⟩
    rw [propagate_group] at hg
    split at hg
    · rename_i hnodup
      have htbl : tbl' = (ind_to_dsnap mt s t).foldl
          (fun l w => setNthI l (desc_vrind mt (mtInd mt s w)) (nthI objs_s w))
          ((m t).getD (List.replicate (num_haloes mt t) (-1))) := by
        exact (Option.some_inj.mp hg).symm
      subst htbl
      apply setFold_getD
      · exact hlt
      · exact ⟨v, hv, pyIdx_nonneg _ _ (hpos v hv)⟩
      · intro w hw hhit
        have hw0 := hpos w hw
        rw [pyIdx_nonneg _ _ hw0] at hhit
        have heq : desc_vrind mt (mtInd mt s w) = desc_vrind mt (mtInd mt s v) := by
          have := hpos v hv
          omega
        rw [group_targets] at hnodup
        have hwv : w = v := List.inj_on_of_nodup_map hnodup hw hv heq
        rw [hwv]
    · exact absurd hg (by simp)

/-- Witness for C8: the duplicate-target tree `exMTdup` aborts, and in the
clean tree `exMT` the targeted slot of snapshot 1 receives its unique main
progenitor's identifier. -/
theorem C8_duplicate_target_witness :
    propagateAll exMTdup 0 [0, 1] (fun _ => none) = none ∧
    (∃ tbl', ((propagateAll exMT 0 [0, 1, 2, 3] (fun _ => none)).getD (fun _ => none)) 1
        = some tbl' ∧ nthI tbl' 0 = nthI [0, 1, 2, 3] 0) := by
  constructor
  · exact ((C8_duplicate_target exMTdup 0 [0, 1] (fun _ => none) 1 (by decide)).1
      (by decide)).1
  · have hres : propagateAll exMT 0 [0, 1, 2, 3] (fun _ => none)
        = some ((propagateAll exMT 0 [0, 1, 2, 3] (fun _ => none)).getD (fun _ => none)) :=
      rfl
    have h := (C8_duplicate_target exMT 0 [0, 1, 2, 3] (fun _ => none) 1 (by decide)).2
      _ hres 0 (by decide) (by decide) (by decide)
    obtain ⟨tbl', h1, h2⟩ := h
    exact ⟨tbl', h1, h2⟩

/-! ## Basic lemmas for the carrier propagation model -/

theorem foldl_max_init_le (l : List Int) : ∀ e : Int, e ≤ l.foldl max e := by
  induction l with
  | nil => intro e; exact le_refl e
  | cons x l ih =>
    intro e
    exact le_trans (le_max_left e x) (ih (max e x))

theorem npmax_ge (l : List Int) (x : Int) (hx : x ∈ l) : x ≤ npmax l := by
  rw [npmax]
  generalize (-(2 ^ 31 : Int)) = e
  induction l generalizing e with
  | nil => simp at hx
  | cons y l ih =>
    rcases List.mem_cons.mp hx with rfl | hx'
    · exact le_trans (le_max_right e x) (foldl_max_init_le l (max e x))
    · exact ih hx' (max e y)

theorem nthI_mem (l : List Int) (v : Nat) (hv : v < l.length) : nthI l v ∈ l := by
  rw [nthI, List.getD_eq_getElem _ _ hv]
  exact List.getElem_mem hv

theorem nthI_default (l : List Int) (v : Nat) (hv : l.length ≤ v) : nthI l v = -99 :=
  List.getD_eq_default _ _ hv

theorem scatterConst_hit (st : Nat → Int) (len : Nat) (idxs : List Int) (v : Int) (j : Nat)
    (h : ∃ x ∈ idxs, pyIdx len x = j) : scatterConst st len idxs v j = v := by
  rw [scatterConst, if_pos]
  rw [List.any_eq_true]
  obtain ⟨x, hx, hj⟩ := h
  exact ⟨x, hx, by simp [hj]⟩

theorem scatterConst_miss (st : Nat → Int) (len : Nat) (idxs : List Int) (v : Int) (j : Nat)
    (h : ∀ x ∈ idxs, pyIdx len x ≠ j) : scatterConst st len idxs v j = st j := by
  rw [scatterConst, if_neg]
  rw [List.any_eq_true]
  rintro ⟨x, hx, hj⟩
  exact h x hx (by simpa using hj)

theorem scatterVals_miss (len : Nat) (j : Nat) :
    ∀ (pairs : List (Int × Int)) (st : Nat → Int),
      (∀ p ∈ pairs, pyIdx len p.1 ≠ j) → scatterVals st len pairs j = st j := by
  intro pairs
  induction pairs with
  | nil => intro st _; rfl
  | cons p ps ih =>
    intro st hm
    rw [scatterVals, List.foldl_cons]
    rw [show (ps.foldl (fun a p => fun j => if j = pyIdx len p.1 then p.2 else a j)
      (fun j => if j = pyIdx len p.1 then p.2 else st j)) = scatterVals
        (fun j => if j = pyIdx len p.1 then p.2 else st j) len ps from rfl]
    rw [ih _ (fun q hq => hm q (List.mem_cons_of_mem _ hq))]
    exact if_neg (fun hc => hm p (List.mem_cons_self p ps) (by omega))

theorem scatterVals_hit (len : Nat) (j : Nat) (d : Int) :
    ∀ (pairs : List (Int × Int)) (st : Nat → Int),
      (∃ p ∈ pairs, pyIdx len p.1 = j) →
      (∀ p ∈ pairs, pyIdx len p.1 = j → p.2 = d) →
      scatterVals st len pairs j = d := by
  intro pairs
  induction pairs with
  | nil => intro st hex _; simp at hex
  | cons p ps ih =>
    intro st hex hall
    rw [scatterVals, List.foldl_cons]
    rw [show (ps.foldl (fun a p => fun j => if j = pyIdx len p.1 then p.2 else a j)
      (fun j => if j = pyIdx len p.1 then p.2 else st j)) = scatterVals
        (fun j => if j = pyIdx len p.1 then p.2 else st j) len ps from rfl]
    by_cases hexL : ∃ q ∈ ps, pyIdx len q.1 = j
    · exact ih _ hexL (fun q hq => hall q (List.mem_cons_of_mem _ hq))
    · push_neg at hexL
      rw [scatterVals_miss len j ps _ hexL]
      obtain ⟨q, hq, hhit⟩ := hex
      rcases List.mem_cons.mp hq with rfl | hq'
      · rw [if_pos hhit.symm]
        exact hall q (List.mem_cons_self q ps) hhit
      · exact absurd hhit (hexL q hq')

theorem updSnap_ne (c : CarrierMap) (t t' : Nat) (f : (Nat → Int) → Nat → Int)
    (h : t' ≠ t) : updSnap c t f t' = c t' := by
  simp [updSnap, h]

theorem updSnap_self (c : CarrierMap) (t : Nat) (f : (Nat → Int) → Nat → Int) :
    updSnap c t f t = (c t).map f := by
  simp [updSnap]

theorem updSnap_isSome (c : CarrierMap) (t t' : Nat) (f : (Nat → Int) → Nat → Int)
    (h : (c t').isSome = true) : (updSnap c t f t').isSome = true := by
  by_cases ht : t' = t
  · subst ht; rw [updSnap_self]; simpa using h
  · rw [updSnap_ne c t t' f ht]; exact h

theorem KeepAt_rfl (i : Nat) (c : CarrierMap) : KeepAt i c c :=
  fun _ b hb => ⟨b, hb, rfl⟩

theorem KeepAt_trans {i : Nat} {c c' c'' : CarrierMap} (h1 : KeepAt i c c')
    (h2 : KeepAt i c' c'') : KeepAt i c c'' := by
  intro t b hb
  obtain ⟨b', hb', he'⟩ := h1 t b hb
  obtain ⟨b'', hb'', he''⟩ := h2 t b' hb'
  exact ⟨b'', hb'', by rw [he'', he']⟩

theorem KeepAt_updSnap (i : Nat) (c : CarrierMap) (t : Nat)
    (f : (Nat → Int) → Nat → Int) (hf : ∀ a, f a i = a i) :
    KeepAt i c (updSnap c t f) := by
  intro t' b hb
  by_cases ht : t' = t
  · subst ht
    rw [updSnap_self, hb]
    exact ⟨f b, rfl, hf b⟩
  · rw [updSnap_ne c t t' f ht]
    exact ⟨b, hb, rfl⟩

theorem KeepAt_foldl (i : Nat) (g : (Nat → Int) → Nat → Int) (hg : ∀ a, g a i = a i) :
    ∀ (L : List Nat) (c : CarrierMap),
      KeepAt i c (L.foldl (fun c t => updSnap c t g) c) := by
  intro L
  induction L with
  | nil => intro c; exact KeepAt_rfl i c
  | cons x L ih =>
    intro c
    rw [List.foldl_cons]
    exact KeepAt_trans (KeepAt_updSnap i c x g hg) (ih (updSnap c x g))

theorem foldl_updSnap_notmem (g : (Nat → Int) → Nat → Int) (t : Nat) :
    ∀ (L : List Nat) (c : CarrierMap), t ∉ L →
      (L.foldl (fun c t' => updSnap c t' g) c) t = c t := by
  intro L
  induction L with
  | nil => intro c _; rfl
  | cons x L ih =>
    intro c hmem
    rw [List.foldl_cons, ih _ (fun hc => hmem (List.mem_cons_of_mem _ hc))]
    exact updSnap_ne c x t g (fun hc => hmem (hc ▸ List.mem_cons_self x L))

theorem foldl_updSnap_write (i : Nat) (g : (Nat → Int) → Nat → Int) (val : Int)
    (hgw : ∀ a, g a i = val) (t : Nat) :
    ∀ (L : List Nat) (c : CarrierMap), L.Nodup → t ∈ L → (c t).isSome = true →
      ∃ b, (L.foldl (fun c t' => updSnap c t' g) c) t = some b ∧ b i = val := by
  intro L
  induction L with
  | nil => intro c _ hmem _; simp at hmem
  | cons x L ih =>
    intro c hnd hmem hsome
    rw [List.foldl_cons]
    rcases List.mem_cons.mp hmem with rfl | hmem'
    · have hnotin : t ∉ L := (List.nodup_cons.mp hnd).1
      rw [foldl_updSnap_notmem g t L _ hnotin, updSnap_self]
      obtain ⟨a, ha⟩ := Option.isSome_iff_exists.mp hsome
      rw [ha]
      exact ⟨g a, rfl, hgw a⟩
    · have hne : t ≠ x := fun hc => (List.nodup_cons.mp hnd).1 (hc ▸ hmem')
      exact ih (updSnap c x g) (List.nodup_cons.mp hnd).2 hmem'
        (by rw [updSnap_ne c x t g hne]; exact hsome)

/-! ## Setup-loop lemmas (`generate_mergelist.py` lines 71-75, 225-242) -/

theorem setup_some (P : Pipeline) (t t' : Nat) (c : CarrierMap) (a : Nat → Int)
    (h : c t' = some a) : setup_carrier_ids P t c t' = some a := by
  rw [setup_carrier_ids]
  split
  · exact h
  · by_cases ht : t' = t
    · subst ht
      rename_i hn
      rw [h] at hn
      simp at hn
    · simp [ht, h]

theorem setup_isSome (P : Pipeline) (t t' : Nat) (c : CarrierMap)
    (h : t' = t ∨ (c t').isSome = true) :
    ((setup_carrier_ids P t c) t').isSome = true := by
  rcases h with rfl | h
  · rw [setup_carrier_ids]
    split
    · assumption
    · simp
  · obtain ⟨a, ha⟩ := Option.isSome_iff_exists.mp h
    rw [setup_some P t t' c a ha]
    rfl

theorem setupFold_some (P : Pipeline) (t' : Nat) (a : Nat → Int) :
    ∀ (L : List Nat) (c : CarrierMap), c t' = some a →
      ((L.foldl (fun c t => setup_carrier_ids P t c) c) t') = some a := by
  intro L
  induction L with
  | nil => intro c h; exact h
  | cons x L ih =>
    intro c h
    rw [List.foldl_cons]
    exact ih _ (setup_some P x t' c a h)

theorem setupFold_isSome (P : Pipeline) (t' : Nat) :
    ∀ (L : List Nat) (c : CarrierMap), (t' ∈ L ∨ (c t').isSome = true) →
      ((L.foldl (fun c t => setup_carrier_ids P t c) c) t').isSome = true := by
  intro L
  induction L with
  | nil =>
    intro c h
    rcases h with h | h
    · simp at h
    · exact h
  | cons x L ih =>
    intro c h
    rw [List.foldl_cons]
    rcases h with h | h
    · rcases List.mem_cons.mp h with heq | h'
      · exact ih _ (Or.inr (setup_isSome P x t' c (Or.inl heq)))
      · exact ih _ (Or.inl h')
    · exact ih _ (Or.inr (setup_isSome P x t' c (Or.inr h)))

theorem carrier1_some (P : Pipeline) (s t' : Nat) (c : CarrierMap) (a : Nat → Int)
    (h : c t' = some a) : carrier1 P s c t' = some a :=
  setupFold_some P t' a (setupList P s) c h

theorem carrier1_isSome (P : Pipeline) (s t' : Nat) (c : CarrierMap)
    (h : t' ∈ setupList P s ∨ (c t').isSome = true) :
    ((carrier1 P s c) t').isSome = true :=
  setupFold_isSome P t' (setupList P s) c h

theorem csOf_of_some (P : Pipeline) (s : Nat) (c : CarrierMap) (a : Nat → Int)
    (h : c s = some a) : csOf P s c = a := by
  rw [csOf, carrier1_some P s s c a h]
  rfl

theorem pyIdx_natCast (len id : Nat) : pyIdx len (id : Int) = id := by
  rw [pyIdx_nonneg len _ (Int.natCast_nonneg id)]
  exact Int.toNat_ofNat id

/-- Successful processing of a non-final, non-empty snapshot decomposes into
the sentinel check, the `s+1` rules, the skip phase and the merge phase. -/
theorem process_snapshot_inversion (P : Pipeline) (s : Nat) (st st' : CState)
    (hne : ¬ (P.objIDs s).length = 0) (hnl : ¬ s = P.num_snaps - 1)
    (hres : process_snapshot P s st = some st') :
    ((List.range (clen P s)).any (fun i => csOf P s st.carrier i == -1)) = false ∧
    ∃ q, skipPhase P s (clen P s) (csOf P s st.carrier)
        (status_simple P s (clen P s)) (c4Of P s st.carrier) = some q ∧
      st'.carrier = (fun t => if t = s then none
        else mergePhase P s (clen P s) (csOf P s st.carrier) q.2 t) ∧
      st'.written = writtenOf P s st := by
  rw [process_snapshot, if_neg hne] at hres
  by_cases hchk : ((List.range (clen P s)).any (fun i => csOf P s st.carrier i == -1)) = true
  · rw [if_pos hchk] at hres
    cases hres
  · rw [if_neg hchk, if_neg hnl] at hres
    rw [Option.map_eq_some'] at hres
    obtain ⟨c', hc', hst'⟩ := hres
    rw [afterRules, Option.map_eq_some'] at hc'
    obtain ⟨q, hq, hcq⟩ := hc'
    refine ⟨by simpa using hchk, q, hq, ?_, ?_⟩
    · rw [← hst', hcq]
    · rw [← hst']

/-! ## Skip-phase lemmas (`generate_mergelist.py` lines 117-132) -/

theorem skipIter_keepAt_neg (P : Pipeline) (s len_s : Nat) (cs : Nat → Int) (i : Nat)
    (hcs : ¬ 0 ≤ cs i) (acc acc₂ : (Nat → Int) × CarrierMap) (k : Nat)
    (h : skipIter P s len_s cs acc k = some acc₂) : KeepAt i acc.2 acc₂.2 := by
  rw [skipIter] at h
  split_ifs at h
  · cases h
    exact KeepAt_rfl i acc.2
  · have hacc := Option.some_inj.mp h
    subst hacc
    exact KeepAt_foldl i _ (fun a => if_neg (fun hc => hcs hc.2.2)) _ acc.2

theorem skipPhase_keepAt_neg (P : Pipeline) (s len_s : Nat) (cs : Nat → Int) (i : Nat)
    (hcs : ¬ 0 ≤ cs i) :
    ∀ (L : List Nat) (acc res : (Nat → Int) × CarrierMap),
      L.foldlM (skipIter P s len_s cs) acc = some res → KeepAt i acc.2 res.2 := by
  intro L
  induction L with
  | nil =>
    intro acc res h
    simp only [List.foldlM_nil] at h
    cases h
    exact KeepAt_rfl i acc.2
  | cons k L ih =>
    intro acc res h
    rw [List.foldlM_cons] at h
    cases hit : skipIter P s len_s cs acc k with
    | none => rw [hit] at h; simp at h
    | some acc₂ =>
      rw [hit] at h
      have h2 : L.foldlM (skipIter P s len_s cs) acc₂ = some res := h
      exact KeepAt_trans (skipIter_keepAt_neg P s len_s cs i hcs acc acc₂ k hit)
        (ih acc₂ res h2)

theorem skipIter_keep_status (P : Pipeline) (s len_s : Nat) (cs : Nat → Int) (i id : Nat)
    (hcsi : cs i = (id : Int)) (acc acc₂ : (Nat → Int) × CarrierMap) (k : Nat)
    (h : skipIter P s len_s cs acc k = some acc₂)
    (hmiss : ∀ w ∈ ind_iskip P s k, pyIdx len_s (nthI (P.objIDs s) w) ≠ id)
    (hne : acc.1 id ≠ (k : Int)) :
    acc₂.1 id = acc.1 id ∧ KeepAt i acc.2 acc₂.2 := by
  rw [skipIter] at h
  split_ifs at h
  · cases h
    exact ⟨rfl, KeepAt_rfl i acc.2⟩
  · have hacc := Option.some_inj.mp h
    subst hacc
    have hst : skipStatus P s len_s acc.1 k id = acc.1 id := by
      rw [skipStatus]
      apply scatterConst_miss
      intro x hx
      obtain ⟨w, hw, rfl⟩ := List.mem_map.mp hx
      exact hmiss w hw
    constructor
    · exact hst
    · show KeepAt i acc.2 (skipWrite s len_s cs (skipStatus P s len_s acc.1 k) k acc.2)
      rw [skipWrite]
      apply KeepAt_foldl
      intro a
      rw [if_neg]
      rintro ⟨-, hguard, -⟩
      rw [hcsi, npget, pyIdx_natCast, hst] at hguard
      exact hne hguard

theorem skipPhase_keep_status (P : Pipeline) (s len_s : Nat) (cs : Nat → Int) (i id : Nat)
    (hcsi : cs i = (id : Int)) :
    ∀ (L : List Nat) (acc res : (Nat → Int) × CarrierMap),
      L.foldlM (skipIter P s len_s cs) acc = some res →
      (∀ k' ∈ L, ∀ w ∈ ind_iskip P s k', pyIdx len_s (nthI (P.objIDs s) w) ≠ id) →
      (∀ k' ∈ L, acc.1 id ≠ (k' : Int)) →
      res.1 id = acc.1 id ∧ KeepAt i acc.2 res.2 := by
  intro L
  induction L with
  | nil =>
    intro acc res h _ _
    simp only [List.foldlM_nil] at h
    cases h
    exact ⟨rfl, KeepAt_rfl i acc.2⟩
  | cons k L ih =>
    intro acc res h hmiss hne
    rw [List.foldlM_cons] at h
    cases hit : skipIter P s len_s cs acc k with
    | none => rw [hit] at h; simp at h
    | some acc₂ =>
      rw [hit] at h
      have h2 : L.foldlM (skipIter P s len_s cs) acc₂ = some res := h
      obtain ⟨hstat, hkeep⟩ := skipIter_keep_status P s len_s cs i id hcsi acc acc₂ k hit
        (hmiss k (List.mem_cons_self k L)) (hne k (List.mem_cons_self k L))
      obtain ⟨hstat2, hkeep2⟩ := ih acc₂ res h2
        (fun k' hk' => hmiss k' (List.mem_cons_of_mem _ hk'))
        (fun k' hk' => hstat ▸ hne k' (List.mem_cons_of_mem _ hk'))
      exact ⟨by rw [hstat2, hstat], KeepAt_trans hkeep hkeep2⟩

theorem skipPhase_write (P : Pipeline) (s len_s : Nat) (cs : Nat → Int) (i o k0 : Nat)
    (hcs : cs i = (o : Int)) (hilt : i < len_s)
    (hmiss : ∀ k' w, k' ≠ k0 → w ∈ ind_iskip P s k' →
      pyIdx len_s (nthI (P.objIDs s) w) ≠ o)
    (hhit : ∃ w ∈ ind_iskip P s k0, pyIdx len_s (nthI (P.objIDs s) w) = o) :
    ∀ (L : List Nat) (acc res : (Nat → Int) × CarrierMap), L.Nodup →
      (∀ k' ∈ L, 2 ≤ k') → k0 ∈ L →
      L.foldlM (skipIter P s len_s cs) acc = some res → acc.1 o < 2 →
      ∀ t, t ∈ List.range' (s + 1) k0 → (acc.2 t).isSome = true →
      ∃ b, res.2 t = some b ∧ b i = cs i := by
  intro L
  induction L with
  | nil =>
    intro acc res _ _ hk0 _ _ t _ _
    simp at hk0
  | cons k L ih =>
    intro acc res hnd h2le hk0 h hlt2 t htmem hsome
    rw [List.foldlM_cons] at h
    cases hit : skipIter P s len_s cs acc k with
    | none => rw [hit] at h; simp at h
    | some acc₂ =>
      rw [hit] at h
      have h2 : L.foldlM (skipIter P s len_s cs) acc₂ = some res := h
      by_cases hk : k = k0
      · subst hk
        rw [skipIter] at hit
        split_ifs at hit with hA
        · obtain ⟨w, hw, -⟩ := hhit
          rw [hA] at hw
          simp at hw
        · have hacc := Option.some_inj.mp hit
          subst hacc
          have hsto : skipStatus P s len_s acc.1 k o = (k : Int) := by
            rw [skipStatus]
            apply scatterConst_hit
            obtain ⟨w, hw, hpy⟩ := hhit
            exact ⟨nthI (P.objIDs s) w, List.mem_map.mpr ⟨w, hw, rfl⟩, hpy⟩
          have hwrite : ∃ b, (skipWrite s len_s cs (skipStatus P s len_s acc.1 k) k acc.2) t
              = some b ∧ b i = cs i := by
            rw [skipWrite]
            refine foldl_updSnap_write i _ (cs i) (fun a => ?_) t _ acc.2
              (List.nodup_range' _ _) htmem hsome
            rw [if_pos]
            exact ⟨hilt, by rw [hcs, npget, pyIdx_natCast, hsto], by rw [hcs]; positivity⟩
          obtain ⟨b, hbt, hbi⟩ := hwrite
          have hnotin : k ∉ L := (List.nodup_cons.mp hnd).1
          obtain ⟨-, hkeep2⟩ := skipPhase_keep_status P s len_s cs i o hcs L
            (skipStatus P s len_s acc.1 k,
              skipWrite s len_s cs (skipStatus P s len_s acc.1 k) k acc.2) res h2
            (fun k' hk' w hw => hmiss k' w (fun hc => hnotin (hc ▸ hk')) hw)
            (fun k' hk' => by
              show skipStatus P s len_s acc.1 k o ≠ (k' : Int)
              rw [hsto]
              intro hc
              have hkk : k = k' := by exact_mod_cast hc
              exact hnotin (hkk ▸ hk'))
          obtain ⟨b', hb', hbi'⟩ := hkeep2 t b hbt
          exact ⟨b', hb', by rw [hbi', hbi]⟩
      · have hk0L : k0 ∈ L := by
          rcases List.mem_cons.mp hk0 with hc | hc
          · exact absurd hc.symm hk
          · exact hc
        obtain ⟨hstat, hkeep⟩ := skipIter_keep_status P s len_s cs i o hcs acc acc₂ k hit
          (fun w hw => hmiss k w hk hw)
          (by
            have h2k : 2 ≤ k := h2le k (List.mem_cons_self k L)
            intro hc
            have : (2 : Int) ≤ (k : Int) := by exact_mod_cast h2k
            omega)
        have hs2 : (acc₂.2 t).isSome = true := by
          obtain ⟨a, ha⟩ := Option.isSome_iff_exists.mp hsome
          obtain ⟨b', hb', -⟩ := hkeep t a ha
          rw [hb']
          rfl
        exact ih acc₂ res (List.nodup_cons.mp hnd).2
          (fun k' hk' => h2le k' (List.mem_cons_of_mem _ hk')) hk0L h2
          (by rw [hstat]; exact hlt2) t htmem hs2

/-! ## Merge-phase lemmas (`generate_mergelist.py` lines 160-172) -/

theorem mergeGroup_other (P : Pipeline) (s len_s : Nat) (cs : Nat → Int) (t t' : Nat)
    (hne : t' ≠ t) (c : CarrierMap) : mergeGroup P s len_s cs t c t' = c t' := by
  rw [mergeGroup]
  split
  · rfl
  · exact updSnap_ne c t t' _ hne

theorem mergeGroup_self_congr (P : Pipeline) (s len_s : Nat) (cs : Nat → Int) (t : Nat)
    (c₁ c₂ : CarrierMap) (h : c₁ t = c₂ t) :
    mergeGroup P s len_s cs t c₁ t = mergeGroup P s len_s cs t c₂ t := by
  rw [mergeGroup, mergeGroup]
  split
  · exact h
  · rw [updSnap_self, updSnap_self, h]

theorem mergeFold_notmem (P : Pipeline) (s len_s : Nat) (cs : Nat → Int) (t : Nat) :
    ∀ (L : List Nat) (c : CarrierMap), t ∉ L →
      (L.foldl (fun c t' => mergeGroup P s len_s cs t' c) c) t = c t := by
  intro L
  induction L with
  | nil => intro c _; rfl
  | cons x L ih =>
    intro c hmem
    rw [List.foldl_cons, ih _ (fun hc => hmem (List.mem_cons_of_mem _ hc))]
    exact mergeGroup_other P s len_s cs x t
      (fun hc => hmem (hc ▸ List.mem_cons_self x L)) c

theorem mergeFold_at (P : Pipeline) (s len_s : Nat) (cs : Nat → Int) (t : Nat) :
    ∀ (L : List Nat) (c : CarrierMap), L.Nodup → t ∈ L →
      (L.foldl (fun c t' => mergeGroup P s len_s cs t' c) c) t
        = mergeGroup P s len_s cs t c t := by
  intro L
  induction L with
  | nil => intro c _ hmem; simp at hmem
  | cons x L ih =>
    intro c hnd hmem
    rw [List.foldl_cons]
    rcases List.mem_cons.mp hmem with rfl | hmem'
    · rw [mergeFold_notmem P s len_s cs t L _ (List.nodup_cons.mp hnd).1]
    · have hne : t ≠ x := fun hc => (List.nodup_cons.mp hnd).1 (hc ▸ hmem')
      rw [ih _ (List.nodup_cons.mp hnd).2 hmem']
      exact mergeGroup_self_congr P s len_s cs t _ c
        (mergeGroup_other P s len_s cs x t hne c)

theorem mergeGroup_keepAt (P : Pipeline) (s len_s : Nat) (cs : Nat → Int) (i t : Nat)
    (c : CarrierMap)
    (hg : ¬ (i < len_s ∧ 0 ≤ npget (mergeStatus P s len_s t) len_s (cs i) ∧ 0 ≤ cs i)) :
    KeepAt i c (mergeGroup P s len_s cs t c) := by
  rw [mergeGroup]
  split
  · exact KeepAt_rfl i c
  · exact KeepAt_updSnap i c t _ (fun a => if_neg hg)

theorem mergePhase_keepAt (P : Pipeline) (s len_s : Nat) (cs : Nat → Int) (i : Nat)
    (c : CarrierMap)
    (hG : ∀ t, ¬ (i < len_s ∧ 0 ≤ npget (mergeStatus P s len_s t) len_s (cs i) ∧ 0 ≤ cs i)) :
    KeepAt i c (mergePhase P s len_s cs c) := by
  rw [mergePhase]
  split
  · exact KeepAt_rfl i c
  · generalize mergeSnapList P s = L
    induction L generalizing c with
    | nil => exact KeepAt_rfl i c
    | cons x L ih =>
      rw [List.foldl_cons]
      exact KeepAt_trans (mergeGroup_keepAt P s len_s cs i x c (hG x))
        (ih (mergeGroup P s len_s cs x c))

theorem mergeStatus_miss (P : Pipeline) (s len_s t : Nat) (id : Nat)
    (hm : ∀ j ∈ mergeSubind P s t,
      pyIdx len_s (nthI (P.objIDs s) (((P.aux s).vr_merging).getD j 0)) ≠ id) :
    mergeStatus P s len_s t id = -1 := by
  rw [mergeStatus]
  apply scatterVals_miss
  intro p hp
  obtain ⟨j, hj, rfl⟩ := List.mem_map.mp hp
  exact hm j hj

theorem mergePhase_keep_global (P : Pipeline) (s len_s : Nat) (cs : Nat → Int)
    (i id : Nat) (hcsi : cs i = (id : Int)) (c : CarrierMap)
    (hm : ∀ j, j < ((P.aux s).merge_targets_snap).length →
      pyIdx len_s (nthI (P.objIDs s) (((P.aux s).vr_merging).getD j 0)) ≠ id) :
    KeepAt i c (mergePhase P s len_s cs c) := by
  apply mergePhase_keepAt
  intro t
  rintro ⟨-, hge, -⟩
  have hms : mergeStatus P s len_s t id = -1 := by
    apply mergeStatus_miss
    intro j hj
    have hjlen : j < ((P.aux s).merge_targets_snap).length := by
      have := List.mem_filter.mp hj
      simpa using this.1
    exact hm j hjlen
  rw [hcsi, npget, pyIdx_natCast, hms] at hge
  omega

theorem mergePhase_write (P : Pipeline) (s len_s : Nat) (cs : Nat → Int)
    (i m t j : Nat)
    (hj : j < ((P.aux s).merge_targets_snap).length)
    (hjt : nthI ((P.aux s).merge_targets_snap) j = (t : Int))
    (hst : s < t)
    (hm : nthI (P.objIDs s) (((P.aux s).vr_merging).getD j 0) = (m : Int))
    (huniq : ∀ j' ∈ mergeSubind P s t,
      pyIdx len_s (nthI (P.objIDs s) (((P.aux s).vr_merging).getD j' 0)) = m → j' = j)
    (hdest : 0 ≤ nthIpy (P.objIDs t) (nthI ((P.aux s).merge_targets_vr) j))
    (hcsi : cs i = (m : Int)) (hilt : i < len_s) (c : CarrierMap)
    (hsome : (c t).isSome = true) :
    ∃ b, mergePhase P s len_s cs c t = some b ∧
      b i = nthIpy (P.objIDs t) (nthI ((P.aux s).merge_targets_vr) j) := by
  have hjm : j ∈ mergeSubind P s t := by
    rw [mergeSubind, List.mem_filter]
    exact ⟨List.mem_range.mpr hj, by simpa using hjt⟩
  have hmts : ((P.aux s).merge_targets_snap) ≠ [] := by
    intro hc
    rw [hc] at hj
    simp at hj
  have htmem : t ∈ mergeSnapList P s := by
    rw [mergeSnapList, List.mem_range'_1]
    have htle : (t : Int) ≤ npmax ((P.aux s).merge_targets_snap) :=
      hjt ▸ npmax_ge _ _ (nthI_mem _ _ hj)
    omega
  have hstM : mergeStatus P s len_s t m
      = nthIpy (P.objIDs t) (nthI ((P.aux s).merge_targets_vr) j) := by
    rw [mergeStatus]
    apply scatterVals_hit
    · refine ⟨(nthI (P.objIDs s) (((P.aux s).vr_merging).getD j 0),
        nthIpy (P.objIDs t) (nthI ((P.aux s).merge_targets_vr) j)), ?_, ?_⟩
      · rw [mergePairs]
        exact List.mem_map.mpr ⟨j, hjm, rfl⟩
      · show pyIdx len_s (nthI (P.objIDs s) (((P.aux s).vr_merging).getD j 0)) = m
        rw [hm, pyIdx_natCast]
    · intro p hp hhit
      rw [mergePairs] at hp
      obtain ⟨j', hj', rfl⟩ := List.mem_map.mp hp
      have : j' = j := huniq j' hj' hhit
      rw [this]
  rw [mergePhase, if_neg hmts, mergeFold_at P s len_s cs t (mergeSnapList P s) c
    (List.nodup_range' _ _) htmem, mergeGroup,
    if_neg (fun hc => (by rw [hc] at hjm; simp at hjm : False)), updSnap_self]
  obtain ⟨a, ha⟩ := Option.isSome_iff_exists.mp hsome
  rw [ha]
  refine ⟨_, rfl, ?_⟩
  show (if i < len_s ∧ 0 ≤ npget (mergeStatus P s len_s t) len_s (cs i) ∧ 0 ≤ cs i
    then npget (mergeStatus P s len_s t) len_s (cs i) else a i) = _
  rw [hcsi, npget, pyIdx_natCast, hstM, if_pos ⟨hilt, hdest, Int.natCast_nonneg m⟩]

/-! ## Step-level helper lemmas -/

theorem process_some_written (P : Pipeline) (s : Nat) (st st' : CState)
    (hne : ¬ (P.objIDs s).length = 0)
    (hres : process_snapshot P s st = some st') : st'.written = writtenOf P s st := by
  rw [process_snapshot, if_neg hne] at hres
  split_ifs at hres
  · have h := Option.some_inj.mp hres
    rw [← h]
  · rw [Option.map_eq_some'] at hres
    obtain ⟨c', -, hst'⟩ := hres
    rw [← hst']

theorem foldl_updSnap_isSome (g : (Nat → Int) → Nat → Int) (t : Nat) :
    ∀ (L : List Nat) (c : CarrierMap), (c t).isSome = true →
      ((L.foldl (fun c t' => updSnap c t' g) c) t).isSome = true := by
  intro L
  induction L with
  | nil => intro c h; exact h
  | cons x L ih =>
    intro c h
    rw [List.foldl_cons]
    exact ih _ (updSnap_isSome c x t g h)

theorem skipIter_isSome (P : Pipeline) (s len_s : Nat) (cs : Nat → Int) (t : Nat)
    (acc acc₂ : (Nat → Int) × CarrierMap) (k : Nat)
    (h : skipIter P s len_s cs acc k = some acc₂)
    (hsome : (acc.2 t).isSome = true) : (acc₂.2 t).isSome = true := by
  rw [skipIter] at h
  split_ifs at h
  · cases h
    exact hsome
  · have hacc := Option.some_inj.mp h
    subst hacc
    exact foldl_updSnap_isSome _ t _ acc.2 hsome

theorem skipPhase_isSome (P : Pipeline) (s len_s : Nat) (cs : Nat → Int) (t : Nat) :
    ∀ (L : List Nat) (acc res : (Nat → Int) × CarrierMap),
      L.foldlM (skipIter P s len_s cs) acc = some res →
      (acc.2 t).isSome = true → (res.2 t).isSome = true := by
  intro L
  induction L with
  | nil =>
    intro acc res h hsome
    simp only [List.foldlM_nil] at h
    cases h
    exact hsome
  | cons k L ih =>
    intro acc res h hsome
    rw [List.foldlM_cons] at h
    cases hit : skipIter P s len_s cs acc k with
    | none => rw [hit] at h; simp at h
    | some acc₂ =>
      rw [hit] at h
      have h2 : L.foldlM (skipIter P s len_s cs) acc₂ = some res := h
      exact ih acc₂ res h2 (skipIter_isSome P s len_s cs t acc acc₂ k hit hsome)

theorem c4Of_isSome (P : Pipeline) (s t : Nat) (c : CarrierMap)
    (h : ((carrier1 P s c) t).isSome = true) : ((c4Of P s c) t).isSome = true := by
  rw [c4Of, simpleRule, fadingRule, fadedHold]
  exact updSnap_isSome _ _ _ _ (updSnap_isSome _ _ _ _ (updSnap_isSome _ _ _ _ h))

theorem c4Of_ne (P : Pipeline) (s t : Nat) (c : CarrierMap) (h : t ≠ s + 1) :
    c4Of P s c t = carrier1 P s c t := by
  rw [c4Of, simpleRule, fadingRule, fadedHold,
    updSnap_ne _ _ _ _ h, updSnap_ne _ _ _ _ h, updSnap_ne _ _ _ _ h]

theorem mem_setupList (P : Pipeline) (s t : Nat)
    (h1 : s ≤ t) (h2 : (t : Int) - (s : Int) ≤ npmax ((P.aux s).vr_numskip)) :
    t ∈ setupList P s := by
  rw [setupList, List.mem_range'_1]
  omega

/-- Claim C10: for a non-empty snapshot `s`, after all propagation from
earlier snapshots has applied and the newly introduced identifiers are
initialised (the state in which `csOf` reads the array), a slot still at
the unresolved sentinel `-1` makes `process_snapshot` abort before anything
is persisted for `s`; otherwise no slot is `-1` and snapshot `s`'s carrier
array is persisted exactly as checked. -/
theorem C10_unresolved_carrier (P : Pipeline) (s : Nat) (st : CState)
    (hne : ¬ (P.objIDs s).length = 0) :
    (((List.range (clen P s)).any (fun i => csOf P s st.carrier i == -1)) = true →
      process_snapshot P s st = none) ∧
    (∀ st', process_snapshot P s st = some st' →
      (∀ i, i < clen P s → csOf P s st.carrier i ≠ -1) ∧
      st'.written s = some (csOf P s st.carrier)) := by
  constructor
  · intro hchk
    rw [process_snapshot, if_neg hne, if_pos hchk]
  · intro st' hres
    have hwr := process_some_written P s st st' hne hres
    refine ⟨?_, by rw [hwr, writtenOf, if_pos rfl]⟩
    intro i hi hc
    rw [process_snapshot, if_neg hne] at hres
    by_cases hchk : ((List.range (clen P s)).any (fun i => csOf P s st.carrier i == -1)) = true
    · rw [if_pos hchk] at hres
      cases hres
    · apply hchk
      rw [List.any_eq_true]
      exact ⟨i, List.mem_range.mpr hi, by simp [hc]⟩

/-- Witness for C10: `stBad`'s carrier array is stuck at the sentinel and
snapshot 0 aborts; from `stSelf0` the snapshot completes and its carrier
array is persisted. -/
theorem C10_unresolved_carrier_witness :
    ((List.range (clen exP 0)).any (fun i => csOf exP 0 stBad.carrier i == -1)) = true ∧
    process_snapshot exP 0 stBad = none ∧
    ((process_snapshot exP 0 stSelf0).getD ⟨fun _ => none, fun _ => none⟩).written 0
      = some (csOf exP 0 stSelf0.carrier) := by
  refine ⟨by decide, (C10_unresolved_carrier exP 0 stBad (by decide)).1 (by decide), ?_⟩
  exact ((C10_unresolved_carrier exP 0 stSelf0 (by decide)).2
    ((process_snapshot exP 0 stSelf0).getD ⟨fun _ => none, fun _ => none⟩) rfl).2

theorem status_fading_of_simple (P : Pipeline) (s len_s : Nat) (id : Nat) (x : Int)
    (hx : status_simple P s len_s id = x) (hne1 : x ≠ 1) :
    status_fading P s len_s id = x := by
  rw [status_simple, scatterConst] at hx
  split at hx
  · exact absurd hx.symm hne1
  · exact hx

/-- Claim C5: if node `v` of snapshot `s` is classified fading and carries
identifier `id1`, then after processing `s` every identifier whose carrier
at `s` is `id1` (including `id1` itself, if self-carried) has carrier
`FADED` (`-10`) at `s+1`.  The coherence hypotheses say that `id1` is not
also marked as a surviving, skipping or merging identifier. -/
theorem C5_fading_passengers (P : Pipeline) (s : Nat) (st st' : CState)
    (a : Nat → Int) (v id1 i : Nat)
    (hne : ¬ (P.objIDs s).length = 0) (hnl : ¬ s = P.num_snaps - 1)
    (hres : process_snapshot P s st = some st')
    (hca : st.carrier s = some a)
    (hskip1 : 1 ≤ npmax ((P.aux s).vr_numskip))
    (hv : v ∈ (P.aux s).vr_fading)
    (hobj : nthI (P.objIDs s) v = (id1 : Int))
    (hC : status_simple P s (clen P s) id1 = -10)
    (hD : ∀ w, w < (P.objIDs s).length →
      pyIdx (clen P s) (nthI (P.objIDs s) w) = id1 →
      nthI ((P.aux s).vr_numskip) w < 2)
    (hE : ∀ j, j < ((P.aux s).merge_targets_snap).length →
      pyIdx (clen P s) (nthI (P.objIDs s) (((P.aux s).vr_merging).getD j 0)) ≠ id1)
    (hi : i < clen P s) (hai : a i = (id1 : Int)) :
    ∃ b, st'.carrier (s + 1) = some b ∧ b i = -10 := by
  obtain ⟨-, q, hq, hcar, -⟩ := process_snapshot_inversion P s st st' hne hnl hres
  have hcs : csOf P s st.carrier = a := csOf_of_some P s st.carrier a hca
  rw [hcs] at hq hcar
  have hst1 : status_fading P s (clen P s) id1 = -10 := by
    rw [status_fading]
    apply scatterConst_hit
    exact ⟨nthI (P.objIDs s) v, List.mem_map.mpr ⟨v, hv, rfl⟩, by rw [hobj, pyIdx_natCast]⟩
  -- the carrier array of snapshot s+1 exists after setup
  have hsome1 : ((carrier1 P s st.carrier) (s + 1)).isSome = true :=
    carrier1_isSome P s (s + 1) st.carrier
      (Or.inl (mem_setupList P s (s + 1) (by omega) (by push_cast; omega)))
  obtain ⟨b0, hb0⟩ := Option.isSome_iff_exists.mp hsome1
  -- value after the three s+1 rules
  have hc4 : ∃ b1, c4Of P s st.carrier (s + 1) = some b1 ∧ b1 i = -10 := by
    rw [c4Of, hcs, simpleRule, updSnap_self, fadingRule, updSnap_self, fadedHold,
      updSnap_self, hb0]
    refine ⟨_, rfl, ?_⟩
    have e2 : (if i < clen P s ∧ a i = -10 then (-10 : Int) else b0 i) = b0 i := by
      rw [if_neg]
      rintro ⟨-, hc⟩
      rw [hai] at hc
      omega
    have e3 : (if i < clen P s ∧
        npget (status_fading P s (clen P s)) (clen P s) (a i) = -10
        then (-10 : Int) else b0 i) = -10 := by
      rw [if_pos]
      exact ⟨hi, by rw [hai, npget, pyIdx_natCast, hst1]⟩
    show (if i < clen P s ∧
        npget (status_simple P s (clen P s)) (clen P s) (a i) = 1 ∧ 0 ≤ a i
        then a i else _) = -10
    rw [if_neg]
    · show (if i < clen P s ∧
          npget (status_fading P s (clen P s)) (clen P s) (a i) = -10 then (-10 : Int)
          else (if i < clen P s ∧ a i = -10 then (-10 : Int) else b0 i)) = -10
      rw [if_pos]
      exact ⟨hi, by rw [hai, npget, pyIdx_natCast, hst1]⟩
    · rintro ⟨-, hc, -⟩
      rw [hai, npget, pyIdx_natCast, hC] at hc
      omega
  obtain ⟨b1, hb1, hbi1⟩ := hc4
  -- skip phase keeps (s+1, i)
  obtain ⟨-, hkeep⟩ := skipPhase_keep_status P s (clen P s) a i id1 hai
    (List.range' 2 (npmax ((P.aux s).vr_numskip) - 1).toNat)
    (status_simple P s (clen P s), c4Of P s st.carrier) q hq
    (by
      intro k' hk' w hw hpy
      have h2k : 2 ≤ k' := (List.mem_range'_1.mp hk').1
      rw [ind_iskip, List.mem_filter, List.mem_range] at hw
      have hweq := of_decide_eq_true hw.2
      have := hD w hw.1 hpy
      omega)
    (by
      intro k' hk'
      have h2k : 2 ≤ k' := (List.mem_range'_1.mp hk').1
      show status_simple P s (clen P s) id1 ≠ (k' : Int)
      rw [hC]
      intro hc
      omega)
  obtain ⟨b2, hb2, hbi2⟩ := hkeep (s + 1) b1 hb1
  -- merge phase keeps (s+1, i)
  have hkeepM := mergePhase_keep_global P s (clen P s) a i id1 hai q.2 hE
  obtain ⟨b3, hb3, hbi3⟩ := hkeepM (s + 1) b2 hb2
  refine ⟨b3, ?_, by rw [hbi3, hbi2, hbi1]⟩
  rw [hcar]
  show (if s + 1 = s then none else mergePhase P s (clen P s) a q.2 (s + 1)) = some b3
  rw [if_neg (by omega)]
  exact hb3

/-- Witness for C5: in `exP5` identifier 1 fades at snapshot 0 while
carrying identifier 0; both carrier slots become `-10` at snapshot 1. -/
theorem C5_fading_passengers_witness :
    1 ∈ (exP5.aux 0).vr_fading ∧
    (∃ b, ((process_snapshot exP5 0 st5).getD ⟨fun _ => none, fun _ => none⟩).carrier 1
      = some b ∧ b 0 = -10) := by
  refine ⟨by decide, ?_⟩
  exact C5_fading_passengers exP5 0 st5
    ((process_snapshot exP5 0 st5).getD ⟨fun _ => none, fun _ => none⟩)
    (fun i => nthI [1, 1] i) 1 1 0 (by decide) (by decide) rfl rfl (by decide)
    (by decide) (by decide) (by decide) (by decide) (by decide) (by decide) (by decide)

/-- One processing step propagates a `FADED` (`-10`) carrier entry of
snapshot `s` to snapshot `s+1`: the hold rule writes `-10` and every later
rule of the step writes at an index only when its carrier at `s` is
non-negative. -/
theorem step_faded_propagates (P : Pipeline) (s : Nat) (st st' : CState)
    (a : Nat → Int) (i : Nat)
    (hne : ¬ (P.objIDs s).length = 0) (hnl : ¬ s = P.num_snaps - 1)
    (hres : process_snapshot P s st = some st')
    (hca : st.carrier s = some a)
    (hskip1 : 1 ≤ npmax ((P.aux s).vr_numskip))
    (hi : i < clen P s) (hai : a i = -10) :
    ∃ b, st'.carrier (s + 1) = some b ∧ b i = -10 := by
  obtain ⟨-, q, hq, hcar, -⟩ := process_snapshot_inversion P s st st' hne hnl hres
  have hcs : csOf P s st.carrier = a := csOf_of_some P s st.carrier a hca
  rw [hcs] at hq hcar
  have hsome1 : ((carrier1 P s st.carrier) (s + 1)).isSome = true :=
    carrier1_isSome P s (s + 1) st.carrier
      (Or.inl (mem_setupList P s (s + 1) (by omega) (by push_cast; omega)))
  obtain ⟨b0, hb0⟩ := Option.isSome_iff_exists.mp hsome1
  have hc4 : ∃ b1, c4Of P s st.carrier (s + 1) = some b1 ∧ b1 i = -10 := by
    rw [c4Of, hcs, simpleRule, updSnap_self, fadingRule, updSnap_self, fadedHold,
      updSnap_self, hb0]
    refine ⟨_, rfl, ?_⟩
    show (if i < clen P s ∧
        npget (status_simple P s (clen P s)) (clen P s) (a i) = 1 ∧ 0 ≤ a i
        then a i else _) = -10
    rw [if_neg (by rintro ⟨-, -, hc⟩; omega)]
    show (if i < clen P s ∧
        npget (status_fading P s (clen P s)) (clen P s) (a i) = -10 then (-10 : Int)
        else (if i < clen P s ∧ a i = -10 then (-10 : Int) else b0 i)) = -10
    by_cases hf : i < clen P s ∧
        npget (status_fading P s (clen P s)) (clen P s) (a i) = -10
    · rw [if_pos hf]
    · rw [if_neg hf, if_pos ⟨hi, hai⟩]
  obtain ⟨b1, hb1, hbi1⟩ := hc4
  have hkeep := skipPhase_keepAt_neg P s (clen P s) a i (by omega)
    (List.range' 2 (npmax ((P.aux s).vr_numskip) - 1).toNat)
    (status_simple P s (clen P s), c4Of P s st.carrier) q hq
  obtain ⟨b2, hb2, hbi2⟩ := hkeep (s + 1) b1 hb1
  have hkeepM := mergePhase_keepAt P s (clen P s) a i q.2
    (fun t => by rintro ⟨-, -, hc⟩; omega)
  obtain ⟨b3, hb3, hbi3⟩ := hkeepM (s + 1) b2 hb2
  refine ⟨b3, ?_, by rw [hbi3, hbi2, hbi1]⟩
  rw [hcar]
  show (if s + 1 = s then none else mergePhase P s (clen P s) a q.2 (s + 1)) = some b3
  rw [if_neg (by omega)]
  exact hb3

/-- Claim C6: `FADED` is absorbing.  If identifier `i`'s carrier slot holds
`-10` at snapshot `s` and the run processes the non-empty snapshots
`s .. s+k` without a fatal condition (each intermediate snapshot firing its
propagation rules), then the carrier array persisted for snapshot `s+k`
still holds `-10` at `i`: the hold rule rewrites `-10` at each step and no
rule of the step overwrites a `FADED` entry with a non-`FADED` value, since
every other write is guarded by a non-negative carrier at the step's
snapshot. -/
theorem C6_faded_absorbing (P : Pipeline) (i : Nat) :
    ∀ (k s : Nat) (st st' : CState) (a : Nat → Int),
      runSteps P s (k + 1) st = some st' →
      (∀ j, j ≤ k → ¬ (P.objIDs (s + j)).length = 0) →
      (∀ j, j < k → ¬ (s + j) = P.num_snaps - 1) →
      (∀ j, j < k → i < clen P (s + j)) →
      (∀ j, j < k → 1 ≤ npmax ((P.aux (s + j)).vr_numskip)) →
      st.carrier s = some a → a i = -10 →
      ∃ w, st'.written (s + k) = some w ∧ w i = -10 := by
  intro k
  induction k with
  | zero =>
    intro s st st' a hrun hnem _ _ _ hca hai
    rw [runSteps] at hrun
    cases hp : process_snapshot P s st with
    | none => rw [hp] at hrun; simp at hrun
    | some st₂ =>
      rw [hp] at hrun
      have hst : runSteps P (s + 1) 0 st₂ = some st' := hrun
      rw [runSteps] at hst
      have hst2 := Option.some_inj.mp hst
      subst hst2
      have hwr := process_some_written P s st st₂ (hnem 0 (le_refl 0)) hp
      refine ⟨a, ?_, hai⟩
      rw [Nat.add_zero, hwr, writtenOf, if_pos rfl, csOf_of_some P s st.carrier a hca]
  | succ k ih =>
    intro s st st' a hrun hnem hnl hlen hskip hca hai
    rw [runSteps] at hrun
    cases hp : process_snapshot P s st with
    | none => rw [hp] at hrun; simp at hrun
    | some st₂ =>
      rw [hp] at hrun
      have hrun2 : runSteps P (s + 1) (k + 1) st₂ = some st' := hrun
      obtain ⟨b, hb, hbi⟩ := step_faded_propagates P s st st₂ a i
        (hnem 0 (Nat.zero_le _)) (hnl 0 (Nat.succ_pos _)) hp hca
        (hskip 0 (Nat.succ_pos _)) (hlen 0 (Nat.succ_pos _)) hai
      have hfin := ih (s + 1) st₂ st' b hrun2
        (fun j hj => by
          have := hnem (j + 1) (by omega)
          rwa [show s + (j + 1) = s + 1 + j by omega] at this)
        (fun j hj => by
          have := hnl (j + 1) (by omega)
          rwa [show s + (j + 1) = s + 1 + j by omega] at this)
        (fun j hj => by
          have := hlen (j + 1) (by omega)
          rwa [show s + (j + 1) = s + 1 + j by omega] at this)
        (fun j hj => by
          have := hskip (j + 1) (by omega)
          rwa [show s + (j + 1) = s + 1 + j by omega] at this)
        hb hbi
      rwa [show s + 1 + k = s + (k + 1) by omega] at hfin

/-- Witness for C6: in `exP` identifier 1 is `FADED` entering snapshot 1 and
the carrier array persisted for snapshot 2 still holds `-10` for it. -/
theorem C6_faded_absorbing_witness :
    (runSteps exP 1 2 stMid).isSome = true ∧
    (∃ w, ((runSteps exP 1 2 stMid).getD ⟨fun _ => none, fun _ => none⟩).written 2
      = some w ∧ w 1 = -10) := by
  refine ⟨by decide, ?_⟩
  exact C6_faded_absorbing exP 1 1 1 stMid
    ((runSteps exP 1 2 stMid).getD ⟨fun _ => none, fun _ => none⟩)
    (fun i => nthI [0, -10, 2, 3] i) rfl
    (by intro j hj; interval_cases j; all_goals decide)
    (by intro j hj; interval_cases j; all_goals decide)
    (by intro j hj; interval_cases j; all_goals decide)
    (by intro j hj; interval_cases j; all_goals decide)
    rfl rfl

/-- Claim C4: for a node `v` of snapshot `s` with skip count `k0 > 1`
carrying identifier `o`, the skip rule holds the carrier value fixed and
copies it unchanged into every snapshot `s+1 .. s+k0`, for `o` itself (when
self-carried) and for every identifier whose carrier at `s` equals `o`; in
particular the carrier value at each of `s+1 .. s+k0-1` equals the value at
`s`.  The coherence hypotheses say that `o` belongs only to node `v` (so
the skip count marking `o` is unambiguous), that `o` is not also marked
fading or simply surviving, and that `o` is not a merging identifier. -/
theorem C4_skip_hold (P : Pipeline) (s : Nat) (st st' : CState) (a : Nat → Int)
    (v o k0 i : Nat)
    (hne : ¬ (P.objIDs s).length = 0) (hnl : ¬ s = P.num_snaps - 1)
    (hres : process_snapshot P s st = some st')
    (hca : st.carrier s = some a)
    (hnum : nthI ((P.aux s).vr_numskip) v = (k0 : Int)) (hk2 : 2 ≤ k0)
    (hv : v < (P.objIDs s).length)
    (hobj : nthI (P.objIDs s) v = (o : Int))
    (hA : status_simple P s (clen P s) o = -1)
    (hB : ∀ w, w < (P.objIDs s).length →
      pyIdx (clen P s) (nthI (P.objIDs s) w) = o →
      nthI ((P.aux s).vr_numskip) w = (k0 : Int))
    (hE : ∀ j, j < ((P.aux s).merge_targets_snap).length →
      pyIdx (clen P s) (nthI (P.objIDs s) (((P.aux s).vr_merging).getD j 0)) ≠ o)
    (hi : i < clen P s) (hai : a i = (o : Int)) :
    ∀ j, 1 ≤ j → j ≤ k0 →
      ∃ b, st'.carrier (s + j) = some b ∧ b i = (o : Int) := by
  obtain ⟨-, q, hq, hcar, -⟩ := process_snapshot_inversion P s st st' hne hnl hres
  have hcs : csOf P s st.carrier = a := csOf_of_some P s st.carrier a hca
  rw [hcs] at hq hcar
  have hst1 : status_fading P s (clen P s) o = -1 :=
    status_fading_of_simple P s (clen P s) o (-1) hA (by omega)
  have hvlen : v < ((P.aux s).vr_numskip).length := by
    by_contra hc
    rw [nthI_default _ _ (by omega)] at hnum
    omega
  have hk0max : (k0 : Int) ≤ npmax ((P.aux s).vr_numskip) :=
    hnum ▸ npmax_ge _ _ (nthI_mem _ _ hvlen)
  intro j h1j hjk0
  have hjset : s + j ∈ setupList P s :=
    mem_setupList P s (s + j) (by omega) (by push_cast; omega)
  have hsomej : ((carrier1 P s st.carrier) (s + j)).isSome = true :=
    carrier1_isSome P s (s + j) st.carrier (Or.inl hjset)
  obtain ⟨b0, hb0⟩ := Option.isSome_iff_exists.mp hsomej
  -- after the three s+1 rules the slot (s+j, i) is some and unchanged when j = 1
  have hc4 : ∃ b1, c4Of P s st.carrier (s + j) = some b1 := by
    by_cases hj1 : s + j = s + 1
    · rw [hj1] at hb0 ⊢
      rw [c4Of, hcs, simpleRule, updSnap_self, fadingRule, updSnap_self, fadedHold,
        updSnap_self, hb0]
      exact ⟨_, rfl⟩
    · rw [c4Of_ne P s (s + j) st.carrier hj1]
      exact ⟨b0, hb0⟩
  obtain ⟨b1, hb1⟩ := hc4
  -- skip phase writes the held value at (s+j, i)
  have hwq := skipPhase_write P s (clen P s) a i o k0 hai hi
    (fun k' w hk' hw hpy => by
      rw [ind_iskip, List.mem_filter, List.mem_range] at hw
      have hweq := of_decide_eq_true hw.2
      have := hB w hw.1 hpy
      rw [this] at hweq
      exact hk' (by exact_mod_cast hweq.symm))
    (⟨v, by
        rw [ind_iskip, List.mem_filter, List.mem_range]
        exact ⟨hv, decide_eq_true hnum⟩,
      by rw [hobj, pyIdx_natCast]⟩)
    (List.range' 2 (npmax ((P.aux s).vr_numskip) - 1).toNat)
    (status_simple P s (clen P s), c4Of P s st.carrier) q
    (List.nodup_range' _ _)
    (fun k' hk' => (List.mem_range'_1.mp hk').1)
    (by rw [List.mem_range'_1]; omega)
    hq
    (by show status_simple P s (clen P s) o < 2; rw [hA]; omega)
    (s + j) (by rw [List.mem_range'_1]; omega)
    (by show (c4Of P s st.carrier (s + j)).isSome = true; rw [hb1]; rfl)
  obtain ⟨b2, hb2, hbi2⟩ := hwq
  -- merge phase does not touch it
  have hkeepM := mergePhase_keep_global P s (clen P s) a i o hai q.2 hE
  obtain ⟨b3, hb3, hbi3⟩ := hkeepM (s + j) b2 hb2
  refine ⟨b3, ?_, by rw [hbi3, hbi2, hai]⟩
  rw [hcar]
  show (if s + j = s then none else mergePhase P s (clen P s) a q.2 (s + j)) = some b3
  rw [if_neg (by omega)]
  exact hb3

/-- Witness for C4: in `exP` node 2 of snapshot 0 skips 2 snapshots with
identifier 2; its carrier value is copied unchanged into snapshots 1 and 2. -/
theorem C4_skip_hold_witness :
    nthI ((exP.aux 0).vr_numskip) 2 = 2 ∧
    (∃ b, ((process_snapshot exP 0 stSelf0).getD ⟨fun _ => none, fun _ => none⟩).carrier 2
      = some b ∧ b 2 = 2) := by
  refine ⟨by decide, ?_⟩
  exact C4_skip_hold exP 0 stSelf0
    ((process_snapshot exP 0 stSelf0).getD ⟨fun _ => none, fun _ => none⟩)
    (fun i => nthI [0, 1, 2] i) 2 2 2 2 (by decide) (by decide) rfl rfl
    (by decide) (by decide) (by decide) (by decide) (by decide) (by decide)
    (by decide) (by decide) (by decide) 2 (by decide) (by decide)

/-- Claim C3: the merge-target snapshots of snapshot `s`'s merging nodes are
processed in strictly increasing order; for the group targeting snapshot
`t`, the scratch map is rebuilt from a fully reset state and maps the
merging identifier `m` (of merging entry `j`) to the destination identifier
read from snapshot `t`'s identifier table, and after processing, the
carrier at `t` of every identifier whose carrier at `s` is `m` equals that
destination identifier. -/
theorem C3_merge_redirection (P : Pipeline) (s : Nat) (st st' : CState) (a : Nat → Int)
    (j m t i : Nat)
    (hne : ¬ (P.objIDs s).length = 0) (hnl : ¬ s = P.num_snaps - 1)
    (hres : process_snapshot P s st = some st')
    (hca : st.carrier s = some a)
    (hj : j < ((P.aux s).merge_targets_snap).length)
    (hjt : nthI ((P.aux s).merge_targets_snap) j = (t : Int))
    (hst : s < t)
    (hm : nthI (P.objIDs s) (((P.aux s).vr_merging).getD j 0) = (m : Int))
    (huniq : ∀ j', j' < ((P.aux s).merge_targets_snap).length →
      nthI ((P.aux s).merge_targets_snap) j' = (t : Int) →
      pyIdx (clen P s) (nthI (P.objIDs s) (((P.aux s).vr_merging).getD j' 0)) = m →
      j' = j)
    (hdest : 0 ≤ nthIpy (P.objIDs t) (nthI ((P.aux s).merge_targets_vr) j))
    (htmax : (t : Int) - (s : Int) ≤ npmax ((P.aux s).vr_numskip))
    (hi : i < clen P s) (hai : a i = (m : Int)) :
    List.Pairwise (· < ·) (mergeSnapList P s) ∧
    ∃ b, st'.carrier t = some b ∧
      b i = nthIpy (P.objIDs t) (nthI ((P.aux s).merge_targets_vr) j) := by
  refine ⟨List.pairwise_lt_range' _ _, ?_⟩
  obtain ⟨-, q, hq, hcar, -⟩ := process_snapshot_inversion P s st st' hne hnl hres
  have hcs : csOf P s st.carrier = a := csOf_of_some P s st.carrier a hca
  rw [hcs] at hq hcar
  have hsomet : ((carrier1 P s st.carrier) t).isSome = true :=
    carrier1_isSome P s t st.carrier
      (Or.inl (mem_setupList P s t (by omega) htmax))
  have hc4t : ((c4Of P s st.carrier) t).isSome = true :=
    c4Of_isSome P s t st.carrier hsomet
  have hqt : (q.2 t).isSome = true :=
    skipPhase_isSome P s (clen P s) a t
      (List.range' 2 (npmax ((P.aux s).vr_numskip) - 1).toNat)
      (status_simple P s (clen P s), c4Of P s st.carrier) q hq hc4t
  obtain ⟨b, hb, hbi⟩ := mergePhase_write P s (clen P s) a i m t j hj hjt hst hm
    (fun j' hj' hpy => by
      rw [mergeSubind, List.mem_filter, List.mem_range] at hj'
      exact huniq j' hj'.1 (of_decide_eq_true hj'.2) hpy)
    hdest hai hi q.2 hqt
  refine ⟨b, ?_, hbi⟩
  rw [hcar]
  show (if t = s then none else mergePhase P s (clen P s) a q.2 t) = some b
  rw [if_neg (by omega)]
  exact hb

/-- Witness for C3: in `exP`, identifier 0 merges at snapshot 1 into the
branch of identifier 3, resolved at snapshot 2; its carrier at snapshot 2
becomes 3. -/
theorem C3_merge_redirection_witness :
    nthI ((exP.aux 1).merge_targets_snap) 0 = 2 ∧
    (∃ b, ((process_snapshot exP 1 stMid).getD ⟨fun _ => none, fun _ => none⟩).carrier 2
      = some b ∧ b 0 = 3) := by
  refine ⟨by decide, ?_⟩
  obtain ⟨b, hb, hbi⟩ := (C3_merge_redirection exP 1 stMid
    ((process_snapshot exP 1 stMid).getD ⟨fun _ => none, fun _ => none⟩)
    (fun i => nthI [0, -10, 2, 3] i) 0 0 2 0 (by decide) (by decide) rfl rfl
    (by decide) (by decide) (by decide) (by decide) (by decide) (by decide)
    (by decide) (by decide) (by decide)).2
  exact ⟨b, hb, by rw [hbi]; decide⟩

end Tracing
